import Mathlib

/-!
# Magnetometer driver (`src/device/sensors/magnetometer/Magnetometer.cpp`)

A shallow embedding of the MicroMag3 driver.  The driver talks to the outside
world only through a handful of primitives (pin writes, a pin read, the SPI
transfer, the microsecond clock, two delays and the SPI configuration calls).
Those primitives are not part of the driver source, so they are parameters of
the embedding:

* every primitive call is recorded, in program order, in `Hw.trace`;
* whatever a primitive returns is given by an `Env`, a deterministic answer
  function of the calls made so far.

The C++ `while` loop of `Magnetometer::read` is the only place that may spin
forever; it is embedded with a fuel argument (`none` = fuel exhausted).
-/

namespace ardadv.sensors.magnetometer

/-! ## Hardware primitives -/

/-- The three pins owned by the driver: `mDataReady`, `mReset`, `mChipSelect`. -/
inductive Pin where
  | dataReady
  | reset
  | chipSelect
  deriving DecidableEq, Repr

/-- The symbolic SPI settings the driver passes to the bus. -/
inductive SpiSetting where
  | SPI_CLOCK_DIV32
  | SPI_MODE0
  | MSBFIRST
  deriving DecidableEq, Repr

/-- One call of a hardware primitive, as issued by the driver. -/
inductive Op where
  /-- `pin.reset(id, mode)`: bind a pin identity; `output = true` is `OUTPUT`. -/
  | pinReset (pin : Pin) (id : Nat) (output : Bool)
  /-- `pin.digitalWrite(level)`; `true` is `HIGH`. -/
  | digitalWrite (pin : Pin) (level : Bool)
  /-- `pin.digitalRead()`. -/
  | digitalRead (pin : Pin)
  /-- `SPI.transfer(byte)`. -/
  | transfer (byte : Nat)
  /-- `micros()`. -/
  | micros
  /-- `::delayMicroseconds(us)`. -/
  | delayMicroseconds (us : Nat)
  /-- `::delay(ms)`. -/
  | delay (ms : Nat)
  | setClockDivider (s : SpiSetting)
  | setDataMode (s : SpiSetting)
  | setBitOrder (s : SpiSetting)
  deriving DecidableEq, Repr

/-- The behaviour of the hardware: what each value-returning primitive answers,
as a function of the calls issued before it (oldest first). -/
structure Env where
  /-- Level seen by `mDataReady.digitalRead()`; `true` is the active level. -/
  dataReady : List Op → Bool
  /-- Byte the device drives back during `SPI.transfer` (taken modulo 256). -/
  miso : List Op → Nat
  /-- Microseconds since power-up at a call of `micros()`; the call returns this
  count modulo 2^32, the counter being 32 bits wide. -/
  clock : List Op → Nat

/-- Observable hardware state: the calls issued so far and the levels last
driven on the two output pins and on the DATA-READY pull-up. -/
structure Hw where
  trace : List Op
  chipSelect : Bool
  reset : Bool
  dataReady : Bool
  deriving DecidableEq, Repr

/-- Append one call to the trace. -/
def Hw.log (h : Hw) (op : Op) : Hw :=
  { h with trace := h.trace ++ [op] }

/-- Embedding of `pin.digitalWrite(level)`. -/
def digitalWrite (pin : Pin) (level : Bool) (h : Hw) : Hw :=
  let h1 := h.log (Op.digitalWrite pin level)
  match pin with
  | Pin.chipSelect => { h1 with chipSelect := level }
  | Pin.reset => { h1 with reset := level }
  | Pin.dataReady => { h1 with dataReady := level }

/-- Embedding of `mDataReady.digitalRead()`. -/
def digitalRead (env : Env) (h : Hw) : Bool × Hw :=
  (env.dataReady h.trace, h.log (Op.digitalRead Pin.dataReady))

/-- Embedding of `SPI.transfer(byte)`: returns the byte driven back. -/
def transfer (env : Env) (byte : Nat) (h : Hw) : Nat × Hw :=
  (env.miso h.trace % 256, h.log (Op.transfer byte))

/-- Embedding of `micros()`: an `unsigned long` (32 bits on the target). -/
def micros (env : Env) (h : Hw) : Nat × Hw :=
  (env.clock h.trace % 2 ^ 32, h.log Op.micros)

/-- Embedding of `::delayMicroseconds(us)`. -/
def delayMicroseconds (us : Nat) (h : Hw) : Hw :=
  h.log (Op.delayMicroseconds us)

/-- Embedding of `::delay(ms)`. -/
def delay (ms : Nat) (h : Hw) : Hw :=
  h.log (Op.delay ms)

/-- The three `SPI.set...` calls made by `setup` and `update`. -/
def spiConfigure (h : Hw) : Hw :=
  ((h.log (Op.setClockDivider SpiSetting.SPI_CLOCK_DIV32)).log
    (Op.setDataMode SpiSetting.SPI_MODE0)).log (Op.setBitOrder SpiSetting.MSBFIRST)

/-! ## Constants -/

def MM_PERIOD_32 : Nat := 0
def MM_PERIOD_64 : Nat := 1
def MM_PERIOD_128 : Nat := 2
def MM_PERIOD_256 : Nat := 3
def MM_PERIOD_512 : Nat := 4
def MM_PERIOD_1024 : Nat := 5
def MM_PERIOD_2048 : Nat := 6
def MM_PERIOD_4096 : Nat := 7

/-! ## Machine integers -/

/-- Reinterpret the low 16 bits of `n` as an `int16_t`. -/
def toInt16 (n : Nat) : Int :=
  if n % 65536 < 32768 then (n % 65536 : Nat) else ((n % 65536 : Nat) : Int) - 65536

/-- Unsigned 32-bit subtraction `a - b` of two `unsigned long` values. -/
def subU32 (a b : Nat) : Nat :=
  (a + 2 ^ 32 - b % 2 ^ 32) % 2 ^ 32

/-! ## The driver -/

/-- The member variables of `Magnetometer`.  The three `float` members only
ever hold `0.0f` or a converted `int16_t`, which `float` represents exactly,
so they are kept as integers. -/
structure Magnetometer where
  mValueX : Int
  mValueY : Int
  mValueZ : Int
  mValid : Bool
  deriving DecidableEq, Repr

/-- `Magnetometer::Magnetometer()`. -/
def Magnetometer.new : Magnetometer :=
  { mValueX := 0, mValueY := 0, mValueZ := 0, mValid := false }

/-- `Magnetometer::pulseReset`. -/
def pulseReset (h : Hw) : Hw :=
  let h1 := digitalWrite Pin.reset true h
  let h2 := delayMicroseconds 1 h1
  digitalWrite Pin.reset false h2

/-- The `uint8_t cmd` built by `Magnetometer::convert`:
`cmd = 0; cmd |= (axis + 1); cmd |= (period << 4);`. -/
def buildCommand (axis period : Nat) : Nat :=
  let cmd0 : Nat := 0
  let cmd1 := (cmd0 ||| (axis + 1)) % 256
  (cmd1 ||| (period <<< 4)) % 256

/-- `Magnetometer::convert(axis, period)`; both arguments are `uint8_t`. -/
def convert (env : Env) (axis period : Nat) (h : Hw) : Bool × Hw :=
  if period > MM_PERIOD_4096 then
    (false, h)
  else
    let cmd := buildCommand axis period
    let h1 := digitalWrite Pin.chipSelect false h
    let h2 := pulseReset h1
    let h3 := (transfer env cmd h2).2
    (true, h3)

/-- `Magnetometer::getResult`.  `SPI.transfer` returns an unsigned byte, stored in
an `int16_t`; `(r0 << 8) | r1` is then narrowed to the `int16_t` return type,
which keeps the low 16 bits (two's complement). -/
def getResult (env : Env) (h : Hw) : Int × Hw :=
  let h1 := digitalWrite Pin.chipSelect false h
  let (r0, h2) := transfer env 0 h1
  let (r1, h3) := transfer env 0 h2
  let h4 := digitalWrite Pin.chipSelect true h3
  (toInt16 ((r0 <<< 8) ||| r1), h4)

/-- The `switch (period)` of `Magnetometer::read`, taken when `timeout == 0`;
`none` is the `default: return false`. -/
def defaultTimeout (period : Nat) : Option Nat :=
  match period with
  | 0 => some 501
  | 1 => some 1001
  | 2 => some 2001
  | 3 => some 4001
  | 4 => some 7501
  | 5 => some 15001
  | 6 => some 35501
  | 7 => some 60001
  | _ => none

/-- The `if (timeout == 0) { switch (period) ... }` block of `Magnetometer::read`:
the timeout the poll loop runs with, or `none` when the block returns false. -/
def resolveTimeout (timeout period : Nat) : Option Nat :=
  if timeout = 0 then defaultTimeout period else some timeout

/-- The `while (!mDataReady.digitalRead())` loop of `Magnetometer::read`, with
start timestamp `t`.  Returns `true` when the loop is left because DATA-READY
was seen active, `false` when it is left through the timeout `return false`,
and `none` when `fuel` iterations were not enough. -/
def pollLoop (env : Env) (t timeout : Nat) : Nat → Hw → Option (Bool × Hw)
  | 0, _ => none
  | fuel + 1, h =>
    let (ready, h1) := digitalRead env h
    if ready then
      some (true, h1)
    else
      let (now, h2) := micros env h1
      if subU32 now t > timeout then
        some (false, h2)
      else
        pollLoop env t timeout fuel h2

/-- `Magnetometer::read(axis, period, result, timeout)`.  The reference
argument `result` is threaded through: the returned triple holds the return
value, the final content of `result` and the hardware state. -/
def read (env : Env) (fuel : Nat) (axis period : Nat) (result : Int) (timeout : Nat)
    (h : Hw) : Option (Bool × Int × Hw) :=
  let (ok, h1) := convert env axis period h
  if !ok then
    some (false, result, h1)
  else
    match resolveTimeout timeout period with
    | none => some (false, result, h1)
    | some timeout1 =>
      let (t, h2) := micros env h1
      match pollLoop env t timeout1 fuel h2 with
      | none => none
      | some (false, h3) => some (false, result, h3)
      | some (true, h3) =>
        let (r, h4) := getResult env h3
        some (true, r, h4)

/-- `Magnetometer::readAxis(axis)`: returns the value and the updated members.
The `int` argument is converted to the `uint8_t` parameter of `read`; the local
`int16_t result` starts at 0. -/
def readAxis (env : Env) (fuel : Nat) (axis : Nat) (m : Magnetometer) (h : Hw) :
    Option (Int × Magnetometer × Hw) :=
  match read env fuel (axis % 256) MM_PERIOD_32 0 0 h with
  | none => none
  | some (false, _, h1) => some (0, { m with mValid := false }, h1)
  | some (true, result, h1) => some (result, m, h1)

/-- `Magnetometer::update`. -/
def update (env : Env) (fuel : Nat) (m : Magnetometer) (h : Hw) :
    Option (Magnetometer × Hw) :=
  let m0 := { m with mValid := true }
  let h1 := digitalWrite Pin.chipSelect false h
  let h2 := delay 2 h1
  let h3 := spiConfigure h2
  match readAxis env fuel 0 m0 h3 with
  | none => none
  | some (x, m1, h4) =>
    match readAxis env fuel 1 { m1 with mValueX := x } h4 with
    | none => none
    | some (y, m2, h5) =>
      match readAxis env fuel 2 { m2 with mValueY := y } h5 with
      | none => none
      | some (z, m3, h6) =>
        some ({ m3 with mValueZ := z }, digitalWrite Pin.chipSelect true h6)

/-- `Magnetometer::setup(drdy, reset, ssnot)`; the arguments are pin numbers. -/
def setup (env : Env) (fuel : Nat) (drdy reset ssnot : Nat) (h : Hw) :
    Option (Bool × Hw) :=
  let h1 := spiConfigure h
  let h2 := h1.log (Op.pinReset Pin.dataReady drdy false)
  let h3 := h2.log (Op.pinReset Pin.reset reset true)
  let h4 := h3.log (Op.pinReset Pin.chipSelect ssnot true)
  let h5 := digitalWrite Pin.dataReady true h4
  let h6 := digitalWrite Pin.reset false h5
  let h7 := digitalWrite Pin.chipSelect true h6
  let tmp : Int := 0
  match read env fuel 0 MM_PERIOD_32 tmp 0 h7 with
  | none => none
  | some (ok, _, h8) => some (ok, h8)

/-! ## Reading a trace -/

/-- The bytes sent with `SPI.transfer`, in order. -/
def sentBytes : List Op → List Nat
  | [] => []
  | Op.transfer b :: rest => b :: sentBytes rest
  | _ :: rest => sentBytes rest

/-- The levels written to CHIP-SELECT, in order. -/
def chipSelectWrites : List Op → List Bool
  | [] => []
  | Op.digitalWrite Pin.chipSelect l :: rest => l :: chipSelectWrites rest
  | _ :: rest => chipSelectWrites rest

/-- The number of DATA-READY polls in a trace. -/
def pollCount : List Op → Nat
  | [] => 0
  | Op.digitalRead _ :: rest => pollCount rest + 1
  | _ :: rest => pollCount rest

/-- The number of clock samples in a trace. -/
def sampleCount : List Op → Nat
  | [] => 0
  | Op.micros :: rest => sampleCount rest + 1
  | _ :: rest => sampleCount rest

/-- The calls made by `n` full iterations of the poll loop (poll, then sample). -/
def pollTrace : Nat → List Op
  | 0 => []
  | n + 1 => Op.digitalRead Pin.dataReady :: Op.micros :: pollTrace n

/-- Level seen by poll number `i` (from 0) of a poll loop entered in state `h`. -/
def pollSees (env : Env) (h : Hw) (i : Nat) : Bool :=
  env.dataReady (h.trace ++ pollTrace i)

/-- Value of `micros() - t` at the clock sample that follows poll number `i` of a
poll loop entered in state `h`. -/
def elapsedAt (env : Env) (t : Nat) (h : Hw) (i : Nat) : Nat :=
  subU32 (env.clock (h.trace ++ pollTrace i ++ [Op.digitalRead Pin.dataReady]) % 2 ^ 32) t

/-- The state after one inactive poll and the clock sample that follows it. -/
def Hw.afterIdlePoll (h : Hw) : Hw :=
  (h.log (Op.digitalRead Pin.dataReady)).log Op.micros

/-- The calls `convert` issues for a valid period. -/
def triggerOps (axis period : Nat) : List Op :=
  [Op.digitalWrite Pin.chipSelect false, Op.digitalWrite Pin.reset true,
   Op.delayMicroseconds 1, Op.digitalWrite Pin.reset false,
   Op.transfer (buildCommand axis period)]

/-- The calls `getResult` issues. -/
def resultOps : List Op :=
  [Op.digitalWrite Pin.chipSelect false, Op.transfer 0, Op.transfer 0,
   Op.digitalWrite Pin.chipSelect true]

/-- The start timestamp `t` captured by `read` (line `const unsigned long t = micros()`). -/
def startStamp (env : Env) (axis period : Nat) (h : Hw) : Nat :=
  (micros env (convert env axis period h).2).1

/-- The hardware state in which `read` enters its poll loop. -/
def loopEntry (env : Env) (axis period : Nat) (h : Hw) : Hw :=
  (micros env (convert env axis period h).2).2

/-- The signed value `getResult` composes when it is entered with history `pre`:
the first byte answered is the high byte, the second the low byte. -/
def resultValue (env : Env) (pre : List Op) : Int :=
  toInt16 ((env.miso (pre ++ [Op.digitalWrite Pin.chipSelect false]) % 256) * 256
    + env.miso (pre ++ [Op.digitalWrite Pin.chipSelect false, Op.transfer 0]) % 256)

/-- A blank hardware state: nothing issued yet, device deselected. -/
def Hw.init : Hw :=
  { trace := [], chipSelect := true, reset := false, dataReady := true }

/-- A scripted test double: the k-th DATA-READY poll sees `ready k`, the k-th
transfer returns `bytes k`, the k-th clock sample reads `clock k`. -/
def Env.script (ready : Nat → Bool) (bytes : Nat → Nat) (clock : Nat → Nat) : Env :=
  { dataReady := fun tr => ready (pollCount tr)
    miso := fun tr => bytes (sentBytes tr).length
    clock := fun tr => clock (sampleCount tr) }

/-- The calls `setup` issues before its throwaway read. -/
def setupOps (drdy reset ssnot : Nat) : List Op :=
  [Op.setClockDivider SpiSetting.SPI_CLOCK_DIV32, Op.setDataMode SpiSetting.SPI_MODE0,
   Op.setBitOrder SpiSetting.MSBFIRST,
   Op.pinReset Pin.dataReady drdy false, Op.pinReset Pin.reset reset true,
   Op.pinReset Pin.chipSelect ssnot true,
   Op.digitalWrite Pin.dataReady true, Op.digitalWrite Pin.reset false,
   Op.digitalWrite Pin.chipSelect true]

/-- The hardware state in which `setup` starts its throwaway read. -/
def setupEntry (drdy reset ssnot : Nat) (h : Hw) : Hw :=
  { trace := h.trace ++ setupOps drdy reset ssnot, chipSelect := true, reset := false,
    dataReady := true }

/-! ## Test doubles -/

/-- A device that is ready at every poll and answers zero bytes. -/
def Env.alwaysReady : Env :=
  Env.script (fun _ => true) (fun _ => 0) (fun _ => 0)

/-- A device whose first poll is inactive while the clock jumps by 1000 us per
sample, so the X axis times out; later polls are active.  The result bytes of
Y are `0x12 0x34`, those of Z are `0xFF 0xFF`. -/
def Env.xTimesOut : Env :=
  Env.script (fun k => decide (1 ≤ k))
    (fun k => [0, 0, 0x12, 0x34, 0, 0xFF, 0xFF].getD k 0) (fun k => 1000 * k)

/-- A device that never becomes ready, on a clock that advances 1000 us per sample. -/
def Env.neverReady : Env :=
  Env.script (fun _ => false) (fun _ => 0) (fun k => 1000 * k)

/-- A device that is always ready and answers `0x12` then `0x34`. -/
def Env.answers1234 : Env :=
  Env.script (fun _ => true) (fun k => if k = 0 then 0x12 else 0x34) (fun _ => 0)

/-- A timed simulation of the hardware: call number `k` (from 0) of a run executes
at true time `time k` (in microseconds), DATA-READY has level `ready τ` at true
time `τ`, and the k-th transfer is answered with `bytes k`. -/
def Env.timed (ready : Nat → Bool) (time : Nat → Nat) (bytes : Nat → Nat) : Env :=
  { dataReady := fun tr => ready (time tr.length)
    miso := fun tr => bytes (sentBytes tr).length
    clock := fun tr => time tr.length }

/-- Every call takes 2 us; DATA-READY never goes active. -/
def Env.quickCallsDead : Env :=
  Env.timed (fun _ => false) (fun k => 2 * k) (fun _ => 0)

/-- A dead DATA-READY line on a clock that is one full counter period (2^32 us)
further at every sample, so every reading of the 32-bit counter is 0. -/
def Env.fullPeriodSteps : Env :=
  Env.script (fun _ => false) (fun _ => 0) (fun k => 2 ^ 32 * k)

/-- A dead DATA-READY line on a clock that does not advance. -/
def Env.frozenClock : Env :=
  Env.script (fun _ => false) (fun _ => 0) (fun _ => 0)

/-! ## Auxiliary lemmas -/

theorem sentBytes_append (l1 l2 : List Op) :
    sentBytes (l1 ++ l2) = sentBytes l1 ++ sentBytes l2 := by
  induction l1 with
  | nil => rfl
  | cons op rest ih => cases op <;> simp [sentBytes, ih]

theorem chipSelectWrites_append (l1 l2 : List Op) :
    chipSelectWrites (l1 ++ l2) = chipSelectWrites l1 ++ chipSelectWrites l2 := by
  induction l1 with
  | nil => rfl
  | cons op rest ih =>
    cases op with
    | digitalWrite pin level => cases pin <;> simp [chipSelectWrites, ih]
    | _ => simp [chipSelectWrites, ih]

theorem pollCount_append (l1 l2 : List Op) :
    pollCount (l1 ++ l2) = pollCount l1 + pollCount l2 := by
  induction l1 with
  | nil => simp [pollCount]
  | cons op rest ih =>
    cases op with
    | digitalRead pin => simp [pollCount, ih]; omega
    | _ => simp [pollCount, ih]

theorem or_mod_256 (a b : Nat) : (a ||| b) % 256 = a % 256 ||| b % 256 := by
  apply Nat.eq_of_testBit_eq
  intro i
  have h : (256 : Nat) = 2 ^ 8 := by norm_num
  rw [h]
  simp only [Nat.testBit_mod_two_pow, Nat.testBit_or]
  by_cases hi : i < 8 <;> simp [hi]

theorem buildCommand_eq (a p : Nat) :
    buildCommand a p = ((a + 1) ||| (p <<< 4)) % 256 := by
  unfold buildCommand
  simp only [Nat.zero_or]
  rw [or_mod_256, Nat.mod_mod, ← or_mod_256]

theorem convert_valid (env : Env) (a p : Nat) (h : Hw) (hp : p ≤ 7) :
    convert env a p h =
      (true, { h with
        trace := h.trace ++ [Op.digitalWrite Pin.chipSelect false,
          Op.digitalWrite Pin.reset true, Op.delayMicroseconds 1,
          Op.digitalWrite Pin.reset false, Op.transfer (buildCommand a p)],
        chipSelect := false, reset := false }) := by
  have : ¬ p > MM_PERIOD_4096 := by simp [MM_PERIOD_4096]; omega
  simp [convert, this, pulseReset, digitalWrite, delayMicroseconds, transfer, Hw.log]

theorem convert_invalid (env : Env) (a p : Nat) (h : Hw) (hp : 8 ≤ p) :
    convert env a p h = (false, h) := by
  have : p > MM_PERIOD_4096 := by simp [MM_PERIOD_4096]; omega
  simp [convert, this]

theorem shift_or_eq (hi lo : Nat) (hlo : lo < 256) : (hi <<< 8) ||| lo = hi * 256 + lo := by
  have h : lo < 2 ^ 8 := by simpa using hlo
  calc (hi <<< 8) ||| lo = 2 ^ 8 * hi ||| lo := by rw [Nat.shiftLeft_eq, Nat.mul_comm]
    _ = 2 ^ 8 * hi + lo := (Nat.mul_add_lt_is_or h hi).symm
    _ = hi * 256 + lo := by omega

/-! ## The poll loop -/

theorem afterIdlePoll_trace (h : Hw) (i : Nat) :
    h.afterIdlePoll.trace ++ pollTrace i = h.trace ++ pollTrace (i + 1) := by
  simp [Hw.afterIdlePoll, Hw.log, pollTrace]

theorem pollSees_shift (env : Env) (h : Hw) (i : Nat) :
    pollSees env h.afterIdlePoll i = pollSees env h (i + 1) := by
  simp [pollSees, afterIdlePoll_trace]

theorem elapsedAt_shift (env : Env) (t : Nat) (h : Hw) (i : Nat) :
    elapsedAt env t h.afterIdlePoll i = elapsedAt env t h (i + 1) := by
  simp [elapsedAt, afterIdlePoll_trace]

theorem pollLoop_succ (env : Env) (t D fuel : Nat) (h : Hw) :
    pollLoop env t D (fuel + 1) h =
      if pollSees env h 0 then some (true, h.log (Op.digitalRead Pin.dataReady))
      else if elapsedAt env t h 0 > D then some (false, h.afterIdlePoll)
      else pollLoop env t D fuel h.afterIdlePoll := by
  simp [pollLoop, digitalRead, micros, pollSees, elapsedAt, pollTrace, Hw.afterIdlePoll, Hw.log]

/-- The loop leaves with `true` at the first poll that sees the active level,
provided no earlier clock sample ran past the timeout. -/
theorem pollLoop_ready (env : Env) (t D : Nat) (j : Nat) :
    ∀ (fuel : Nat) (h : Hw), j < fuel →
      (∀ i, i < j → pollSees env h i = false ∧ elapsedAt env t h i ≤ D) →
      pollSees env h j = true →
      pollLoop env t D fuel h =
        some (true, { h with trace := h.trace ++ pollTrace j ++ [Op.digitalRead Pin.dataReady] }) := by
  induction j with
  | zero =>
    intro fuel h hf _ hj
    obtain ⟨f, rfl⟩ : ∃ f, fuel = f + 1 := ⟨fuel - 1, by omega⟩
    rw [pollLoop_succ]
    simp [hj, Hw.log, pollTrace]
  | succ j ih =>
    intro fuel h hf hidle hj
    obtain ⟨f, rfl⟩ : ∃ f, fuel = f + 1 := ⟨fuel - 1, by omega⟩
    rw [pollLoop_succ]
    have h0 := hidle 0 (by omega)
    have hnot : ¬ elapsedAt env t h 0 > D := by omega
    simp only [h0.1, hnot, if_false, Bool.false_eq_true]
    rw [ih f h.afterIdlePoll (by omega)
      (fun i hi => by rw [pollSees_shift, elapsedAt_shift]; exact hidle (i + 1) (by omega))
      (by rw [pollSees_shift]; exact hj)]
    have := afterIdlePoll_trace h j
    simp only [this]
    simp [Hw.afterIdlePoll, Hw.log]

/-- The loop leaves with `false` at the first clock sample past the timeout,
provided DATA-READY was not seen active up to then. -/
theorem pollLoop_timeout (env : Env) (t D : Nat) (j : Nat) :
    ∀ (fuel : Nat) (h : Hw), j < fuel →
      (∀ i, i < j → pollSees env h i = false ∧ elapsedAt env t h i ≤ D) →
      pollSees env h j = false → D < elapsedAt env t h j →
      pollLoop env t D fuel h =
        some (false, { h with trace := h.trace ++ pollTrace (j + 1) }) := by
  induction j with
  | zero =>
    intro fuel h hf _ hj he
    obtain ⟨f, rfl⟩ : ∃ f, fuel = f + 1 := ⟨fuel - 1, by omega⟩
    rw [pollLoop_succ]
    simp [hj, he, Hw.afterIdlePoll, Hw.log, pollTrace]
  | succ j ih =>
    intro fuel h hf hidle hj he
    obtain ⟨f, rfl⟩ : ∃ f, fuel = f + 1 := ⟨fuel - 1, by omega⟩
    rw [pollLoop_succ]
    have h0 := hidle 0 (by omega)
    have hnot : ¬ elapsedAt env t h 0 > D := by omega
    simp only [h0.1, hnot, if_false, Bool.false_eq_true]
    rw [ih f h.afterIdlePoll (by omega)
      (fun i hi => by rw [pollSees_shift, elapsedAt_shift]; exact hidle (i + 1) (by omega))
      (by rw [pollSees_shift]; exact hj) (by rw [elapsedAt_shift]; exact he)]
    have := afterIdlePoll_trace h (j + 1)
    simp only [this]
    simp [Hw.afterIdlePoll, Hw.log]

/-- Every way the loop can return. -/
theorem pollLoop_inv (env : Env) (t D : Nat) :
    ∀ (fuel : Nat) (h : Hw) (ok : Bool) (h' : Hw),
      pollLoop env t D fuel h = some (ok, h') →
      ∃ j, j < fuel ∧ (∀ i, i < j → pollSees env h i = false ∧ elapsedAt env t h i ≤ D) ∧
        ((ok = true ∧ pollSees env h j = true ∧
            h' = { h with trace := h.trace ++ pollTrace j ++ [Op.digitalRead Pin.dataReady] }) ∨
         (ok = false ∧ pollSees env h j = false ∧ D < elapsedAt env t h j ∧
            h' = { h with trace := h.trace ++ pollTrace (j + 1) })) := by
  intro fuel
  induction fuel with
  | zero => intro h ok h' hrun; simp [pollLoop] at hrun
  | succ f ih =>
    intro h ok h' hrun
    rw [pollLoop_succ] at hrun
    by_cases h0 : pollSees env h 0 = true
    · simp only [h0, if_true, Option.some.injEq, Prod.mk.injEq] at hrun
      refine ⟨0, by omega, fun i hi => absurd hi (by omega), Or.inl ⟨hrun.1.symm, h0, ?_⟩⟩
      rw [← hrun.2]; simp [Hw.log, pollTrace]
    · have h0f : pollSees env h 0 = false := by simpa using h0
      simp only [h0f, if_false, Bool.false_eq_true] at hrun
      by_cases he : elapsedAt env t h 0 > D
      · simp only [he, if_true, Option.some.injEq, Prod.mk.injEq] at hrun
        refine ⟨0, by omega, fun i hi => absurd hi (by omega), Or.inr ⟨hrun.1.symm, h0f, he, ?_⟩⟩
        rw [← hrun.2]; simp [Hw.afterIdlePoll, Hw.log, pollTrace]
      · simp only [he, if_false] at hrun
        obtain ⟨j, hj, hidle, hend⟩ := ih h.afterIdlePoll ok h' hrun
        refine ⟨j + 1, by omega, ?_, ?_⟩
        · intro i hi
          cases i with
          | zero => exact ⟨h0f, by omega⟩
          | succ i =>
            have := hidle i (by omega)
            rwa [pollSees_shift, elapsedAt_shift] at this
        · rw [pollSees_shift, elapsedAt_shift, afterIdlePoll_trace, afterIdlePoll_trace] at hend
          rcases hend with ⟨a, b, c⟩ | ⟨a, b, c, d⟩
          · exact Or.inl ⟨a, b, by rw [c]; simp [Hw.afterIdlePoll, Hw.log]⟩
          · exact Or.inr ⟨a, b, c, by rw [d]; simp [Hw.afterIdlePoll, Hw.log]⟩

/-! ## Single-axis read -/

theorem sentBytes_pollTrace (n : Nat) : sentBytes (pollTrace n) = [] := by
  induction n with
  | zero => rfl
  | succ n ih => simp [pollTrace, sentBytes, ih]

theorem chipSelectWrites_pollTrace (n : Nat) : chipSelectWrites (pollTrace n) = [] := by
  induction n with
  | zero => rfl
  | succ n ih => simp [pollTrace, chipSelectWrites, ih]

theorem pollCount_pollTrace (n : Nat) : pollCount (pollTrace n) = n := by
  induction n with
  | zero => rfl
  | succ n ih => simp [pollTrace, pollCount, ih]

theorem resolveTimeout_valid (timeout p : Nat) (hp : p ≤ 7) :
    ∃ D, resolveTimeout timeout p = some D := by
  unfold resolveTimeout
  by_cases h0 : timeout = 0
  · interval_cases p <;> simp [h0, defaultTimeout]
  · simp [h0]

theorem getResult_eq (env : Env) (h : Hw) :
    getResult env h =
      (toInt16 (((env.miso (h.trace ++ [Op.digitalWrite Pin.chipSelect false]) % 256) <<< 8) |||
          (env.miso (h.trace ++ [Op.digitalWrite Pin.chipSelect false, Op.transfer 0]) % 256)),
       { h with trace := h.trace ++ resultOps, chipSelect := true }) := by
  simp [getResult, transfer, digitalWrite, Hw.log, resultOps]

theorem loopEntry_eq (env : Env) (a p : Nat) (h : Hw) (hp : p ≤ 7) :
    loopEntry env a p h =
      { h with trace := h.trace ++ (triggerOps a p ++ [Op.micros]),
               chipSelect := false, reset := false } := by
  unfold loopEntry
  rw [convert_valid env a p h hp]
  simp [micros, Hw.log, triggerOps]

/-- `read` with a valid period is the trigger, one clock sample, the poll loop
and, on success only, `getResult`. -/
theorem read_valid (env : Env) (fuel a p : Nat) (result : Int) (timeout D : Nat) (h : Hw)
    (hp : p ≤ 7) (hD : resolveTimeout timeout p = some D) :
    read env fuel a p result timeout h =
      match pollLoop env (startStamp env a p h) D fuel (loopEntry env a p h) with
      | none => none
      | some (false, h3) => some (false, result, h3)
      | some (true, h3) => some (true, (getResult env h3).1, (getResult env h3).2) := by
  unfold read startStamp loopEntry
  rw [convert_valid env a p h hp]
  simp only [Bool.not_true, Bool.false_eq_true, if_false, hD]

/-- Every way `read` can return for a valid period. -/
theorem read_inv (env : Env) (fuel a p : Nat) (result : Int) (timeout : Nat) (h : Hw)
    (ok : Bool) (r : Int) (h' : Hw) (hp : p ≤ 7)
    (hrun : read env fuel a p result timeout h = some (ok, r, h')) :
    ∃ j, j < fuel ∧
      ((ok = true
          ∧ h' = { h with
              trace := h.trace ++ (triggerOps a p ++ [Op.micros] ++ pollTrace j
                ++ [Op.digitalRead Pin.dataReady] ++ resultOps),
              chipSelect := true, reset := false }
          ∧ r = toInt16
              ((env.miso (h.trace ++ (triggerOps a p ++ [Op.micros] ++ pollTrace j
                    ++ [Op.digitalRead Pin.dataReady]) ++
                  [Op.digitalWrite Pin.chipSelect false]) % 256) * 256
                + env.miso (h.trace ++ (triggerOps a p ++ [Op.micros] ++ pollTrace j
                    ++ [Op.digitalRead Pin.dataReady]) ++
                  [Op.digitalWrite Pin.chipSelect false, Op.transfer 0]) % 256))
      ∨ (ok = false ∧ r = result
          ∧ h' = { h with
              trace := h.trace ++ (triggerOps a p ++ [Op.micros] ++ pollTrace (j + 1)),
              chipSelect := false, reset := false })) := by
  obtain ⟨D, hD⟩ := resolveTimeout_valid timeout p hp
  rw [read_valid env fuel a p result timeout D h hp hD] at hrun
  cases hloop : pollLoop env (startStamp env a p h) D fuel (loopEntry env a p h) with
  | none => simp [hloop] at hrun
  | some res =>
    obtain ⟨ok3, h3⟩ := res
    obtain ⟨j, hj, _, hend⟩ := pollLoop_inv env _ D fuel _ ok3 h3 hloop
    rw [hloop] at hrun
    rw [loopEntry_eq env a p h hp] at hend
    refine ⟨j, hj, ?_⟩
    rcases hend with ⟨hok, _, hh3⟩ | ⟨hok, _, _, hh3⟩
    · subst hok
      simp only [Option.some.injEq, Prod.mk.injEq] at hrun
      obtain ⟨rfl, hr, hh'⟩ := hrun
      rw [getResult_eq] at hr hh'
      simp only at hr hh'
      left
      refine ⟨rfl, ?_, ?_⟩
      · rw [← hh', hh3]; simp
      · rw [← hr, hh3, shift_or_eq _ _ (Nat.mod_lt _ (by norm_num))]
        simp
    · subst hok
      simp only [Option.some.injEq, Prod.mk.injEq] at hrun
      obtain ⟨rfl, hr, hh'⟩ := hrun
      right
      refine ⟨rfl, hr.symm, ?_⟩
      rw [← hh', hh3]; simp

/-- What a returning `read` with a valid period has done to the hardware. -/
theorem read_effects (env : Env) (fuel a p : Nat) (result : Int) (timeout : Nat) (h : Hw)
    (ok : Bool) (r : Int) (h' : Hw) (hp : p ≤ 7)
    (hrun : read env fuel a p result timeout h = some (ok, r, h')) :
    ∃ added, h'.trace = h.trace ++ added
      ∧ sentBytes added = buildCommand a p :: (if ok then [0, 0] else [])
      ∧ chipSelectWrites added = false :: (if ok then [false, true] else [])
      ∧ h'.chipSelect = ok ∧ h'.reset = false
      ∧ (ok = false → r = result)
      ∧ (ok = true → ∃ pre, h'.trace = pre ++ resultOps
          ∧ r = resultValue env pre) := by
  obtain ⟨j, _, hcase⟩ := read_inv env fuel a p result timeout h ok r h' hp hrun
  rcases hcase with ⟨rfl, hh', hr⟩ | ⟨rfl, hr, hh'⟩
  · refine ⟨_, (by rw [hh']), ?_, ?_, (by rw [hh']), (by rw [hh']), (fun hc => by cases hc), fun _ => ?_⟩
    · simp [sentBytes_append, sentBytes, sentBytes_pollTrace, triggerOps, resultOps]
    · simp [chipSelectWrites_append, chipSelectWrites, chipSelectWrites_pollTrace, triggerOps,
        resultOps]
    · refine ⟨h.trace ++ (triggerOps a p ++ [Op.micros] ++ pollTrace j
          ++ [Op.digitalRead Pin.dataReady]), ?_, hr⟩
      rw [hh']; simp
  · refine ⟨_, (by rw [hh']), ?_, ?_, (by rw [hh']), (by rw [hh']), (fun _ => hr), fun hc => by cases hc⟩
    · simp [sentBytes_append, sentBytes, sentBytes_pollTrace, triggerOps]
    · simp [chipSelectWrites_append, chipSelectWrites, chipSelectWrites_pollTrace, triggerOps]

/-! ## Full-sample pass -/

theorem readAxis_eq (env : Env) (fuel a : Nat) (m : Magnetometer) (h : Hw)
    (ok : Bool) (r : Int) (h1 : Hw)
    (hrun : read env fuel (a % 256) MM_PERIOD_32 0 0 h = some (ok, r, h1)) :
    readAxis env fuel a m h =
      some (if ok then r else 0, { m with mValid := m.mValid && ok }, h1) := by
  unfold readAxis
  rw [hrun]
  cases ok <;> simp

theorem readAxis_none (env : Env) (fuel a : Nat) (m : Magnetometer) (h : Hw)
    (hrun : read env fuel (a % 256) MM_PERIOD_32 0 0 h = none) :
    readAxis env fuel a m h = none := by
  unfold readAxis
  rw [hrun]

/-- Every way `update` can return: three single-axis reads in a row. -/
theorem update_inv (env : Env) (fuel : Nat) (m m' : Magnetometer) (h h' : Hw)
    (hrun : update env fuel m h = some (m', h')) :
    ∃ okX rX hX okY rY hY okZ rZ hZ,
      read env fuel 0 MM_PERIOD_32 0 0
          (spiConfigure (delay 2 (digitalWrite Pin.chipSelect false h))) = some (okX, rX, hX)
      ∧ read env fuel 1 MM_PERIOD_32 0 0 hX = some (okY, rY, hY)
      ∧ read env fuel 2 MM_PERIOD_32 0 0 hY = some (okZ, rZ, hZ)
      ∧ h' = digitalWrite Pin.chipSelect true hZ
      ∧ m' = { mValueX := if okX then rX else 0, mValueY := if okY then rY else 0,
               mValueZ := if okZ then rZ else 0, mValid := okX && okY && okZ } := by
  unfold update at hrun
  simp only at hrun
  rcases Option.eq_none_or_eq_some (read env fuel 0 MM_PERIOD_32 0 0
      (spiConfigure (delay 2 (digitalWrite Pin.chipSelect false h)))) with hx | ⟨⟨okX, rX, hX⟩, hx⟩
  · rw [readAxis_none _ _ 0 _ _ hx] at hrun; simp at hrun
  rw [readAxis_eq _ _ 0 _ _ _ _ _ hx] at hrun
  simp only at hrun
  rcases Option.eq_none_or_eq_some (read env fuel 1 MM_PERIOD_32 0 0 hX) with
    hy | ⟨⟨okY, rY, hY⟩, hy⟩
  · rw [readAxis_none _ _ 1 _ _ hy] at hrun; simp at hrun
  rw [readAxis_eq _ _ 1 _ _ _ _ _ hy] at hrun
  simp only at hrun
  rcases Option.eq_none_or_eq_some (read env fuel 2 MM_PERIOD_32 0 0 hY) with
    hz | ⟨⟨okZ, rZ, hZ⟩, hz⟩
  · rw [readAxis_none _ _ 2 _ _ hz] at hrun; simp at hrun
  rw [readAxis_eq _ _ 2 _ _ _ _ _ hz] at hrun
  simp only [Option.some.injEq, Prod.mk.injEq] at hrun
  refine ⟨okX, rX, hX, okY, rY, hY, okZ, rZ, hZ, hx, hy, hz, hrun.2.symm, ?_⟩
  rw [← hrun.1]
  simp

theorem update_trace (env : Env) (fuel : Nat) (m m' : Magnetometer) (h h' : Hw)
    (hrun : update env fuel m h = some (m', h')) :
    ∃ okX rX hX okY rY hY okZ rZ hZ added,
      read env fuel 0 MM_PERIOD_32 0 0
          (spiConfigure (delay 2 (digitalWrite Pin.chipSelect false h))) = some (okX, rX, hX)
      ∧ read env fuel 1 MM_PERIOD_32 0 0 hX = some (okY, rY, hY)
      ∧ read env fuel 2 MM_PERIOD_32 0 0 hY = some (okZ, rZ, hZ)
      ∧ h'.trace = h.trace ++ added
      ∧ sentBytes added = 1 :: ((if okX then [0, 0] else []) ++ 2 :: ((if okY then [0, 0] else [])
          ++ 3 :: (if okZ then [0, 0] else [])))
      ∧ chipSelectWrites added = false :: (false :: (if okX then [false, true] else [])
          ++ (false :: (if okY then [false, true] else [])
          ++ (false :: (if okZ then [false, true] else []) ++ [true]))) := by
  obtain ⟨okX, rX, hX, okY, rY, hY, okZ, rZ, hZ, hx, hy, hz, hh', _⟩ :=
    update_inv env fuel m m' h h' hrun
  obtain ⟨aX, tX, sX, cX, _⟩ := read_effects env fuel 0 0 0 0 _ okX rX hX (by decide) hx
  obtain ⟨aY, tY, sY, cY, _⟩ := read_effects env fuel 1 0 0 0 _ okY rY hY (by decide) hy
  obtain ⟨aZ, tZ, sZ, cZ, _⟩ := read_effects env fuel 2 0 0 0 _ okZ rZ hZ (by decide) hz
  refine ⟨okX, rX, hX, okY, rY, hY, okZ, rZ, hZ,
    [Op.digitalWrite Pin.chipSelect false, Op.delay 2,
      Op.setClockDivider SpiSetting.SPI_CLOCK_DIV32, Op.setDataMode SpiSetting.SPI_MODE0,
      Op.setBitOrder SpiSetting.MSBFIRST] ++ aX ++ aY ++ aZ
      ++ [Op.digitalWrite Pin.chipSelect true], hx, hy, hz, ?_, ?_, ?_⟩
  · rw [hh']
    simp only [digitalWrite, Hw.log, tZ, tY, tX, spiConfigure, delay]
    simp
  · simp only [sentBytes_append, sX, sY, sZ]
    simp [sentBytes, buildCommand]
  · simp only [chipSelectWrites_append, cX, cY, cZ]
    simp [chipSelectWrites]

/-! ## Timed simulations -/

theorem subU32_mod (a b : Nat) (hab : b ≤ a) :
    subU32 (a % 2 ^ 32) (b % 2 ^ 32) = (a - b) % 2 ^ 32 := by
  unfold subU32
  norm_num
  omega

theorem pollCount_triggerOps (a p : Nat) : pollCount (triggerOps a p) = 0 := rfl

/-! ## Command encoding and the conversion trigger -/

/-- C1: for every period rank `p` in 0..7 and axis `a` in 0..2, the one byte that
`convert` transfers is `(a+1) | (p << 4)`; its low nibble is the select code `a+1`
and its high nibble is `p`. -/
theorem convert_command_byte (env : Env) (h : Hw) (a p : Nat) (ha : a ≤ 2) (hp : p ≤ 7) :
    sentBytes (convert env a p h).2.trace = sentBytes h.trace ++ [(a + 1) ||| (p <<< 4)]
      ∧ ((a + 1) ||| (p <<< 4)) % 16 = a + 1
      ∧ ((a + 1) ||| (p <<< 4)) / 16 = p
      ∧ (a + 1) ||| (p <<< 4) < 256 := by
  have key : ∀ a, a ≤ 2 → ∀ p, p ≤ 7 →
      (((a + 1) ||| (p <<< 4)) % 16 = a + 1 ∧ ((a + 1) ||| (p <<< 4)) / 16 = p
        ∧ ((a + 1) ||| (p <<< 4)) < 256) := by decide
  obtain ⟨k1, k2, k3⟩ := key a ha p hp
  refine ⟨?_, k1, k2, k3⟩
  rw [convert_valid env a p h hp, buildCommand_eq, Nat.mod_eq_of_lt k3]
  simp [sentBytes_append, sentBytes]

/-- Witness for C1: axis Z at the longest period sends `0x73`. -/
theorem convert_command_byte_witness :
    sentBytes (convert Env.alwaysReady 2 7 Hw.init).2.trace
        = sentBytes Hw.init.trace ++ [(2 + 1) ||| (7 <<< 4)]
      ∧ ((2 + 1) ||| (7 <<< 4)) % 16 = 2 + 1
      ∧ ((2 + 1) ||| (7 <<< 4)) / 16 = 7
      ∧ (2 + 1) ||| (7 <<< 4) < 256 :=
  convert_command_byte _ Hw.init 2 7 (by decide) (by decide)

/-- C2: for a period rank of 8 or more, `convert` and `read` both return false
without touching the hardware: the state and the trace are unchanged and `read`
leaves `result` as it was. -/
theorem invalid_period_touches_nothing (env : Env) (fuel a p : Nat) (result : Int)
    (timeout : Nat) (h : Hw) (hp : 8 ≤ p) :
    convert env a p h = (false, h)
      ∧ read env fuel a p result timeout h = some (false, result, h) := by
  refine ⟨convert_invalid env a p h hp, ?_⟩
  simp [read, convert_invalid env a p h hp]

/-- Witness for C2: rank 8 on axis X. -/
theorem invalid_period_touches_nothing_witness :
    convert Env.alwaysReady 0 8 Hw.init = (false, Hw.init)
      ∧ read Env.alwaysReady 0 0 8 5 0 Hw.init
          = some (false, 5, Hw.init) :=
  invalid_period_touches_nothing _ 0 0 8 5 0 Hw.init (by decide)

/-- C10: for every axis and every period rank in 0..7, `convert` returns true and
issues exactly: CHIP-SELECT low, RESET high, delay 1 us, RESET low, one transfer of
the command byte; it returns with CHIP-SELECT low and RESET low. -/
theorem convert_actions (env : Env) (a p : Nat) (h : Hw) (hp : p ≤ 7) :
    (convert env a p h).1 = true
      ∧ (convert env a p h).2.trace = h.trace ++
          [Op.digitalWrite Pin.chipSelect false, Op.digitalWrite Pin.reset true,
           Op.delayMicroseconds 1, Op.digitalWrite Pin.reset false,
           Op.transfer (((a + 1) ||| (p <<< 4)) % 256)]
      ∧ (convert env a p h).2.chipSelect = false
      ∧ (convert env a p h).2.reset = false := by
  rw [convert_valid env a p h hp, buildCommand_eq]
  simp

/-- Witness for C10: axis Y at rank 3, starting from a deselected device. -/
theorem convert_actions_witness :
    (convert Env.alwaysReady 1 3 Hw.init).1 = true
      ∧ (convert Env.alwaysReady 1 3 Hw.init).2.trace
          = Hw.init.trace ++
          [Op.digitalWrite Pin.chipSelect false, Op.digitalWrite Pin.reset true,
           Op.delayMicroseconds 1, Op.digitalWrite Pin.reset false,
           Op.transfer (((1 + 1) ||| (3 <<< 4)) % 256)]
      ∧ (convert Env.alwaysReady 1 3 Hw.init).2.chipSelect
          = false
      ∧ (convert Env.alwaysReady 1 3 Hw.init).2.reset
          = false :=
  convert_actions _ 1 3 Hw.init (by decide)

/-! ## Result composition and the default timeout -/

/-- C3: whatever two bytes `(hi, lo)` the two transfers of `getResult` return, in
that order, the value returned is the signed 16-bit integer with bit pattern
`hi*256 + lo`; bytes `0x12, 0x34` give 4660 and bytes `0xFF, 0xFF` give -1. -/
theorem getResult_value (env : Env) (h : Hw) (hi lo : Nat)
    (hhi : (transfer env 0 (digitalWrite Pin.chipSelect false h)).1 = hi)
    (hlo : (transfer env 0 (transfer env 0 (digitalWrite Pin.chipSelect false h)).2).1 = lo) :
    -32768 ≤ (getResult env h).1 ∧ (getResult env h).1 < 32768
      ∧ (getResult env h).1 % 65536 = ((hi * 256 + lo : Nat) : Int)
      ∧ (hi = 0x12 → lo = 0x34 → (getResult env h).1 = 4660)
      ∧ (hi = 0xFF → lo = 0xFF → (getResult env h).1 = -1) := by
  have h1 : hi < 256 := by rw [← hhi]; exact Nat.mod_lt _ (by norm_num)
  have h2 : lo < 256 := by rw [← hlo]; exact Nat.mod_lt _ (by norm_num)
  have hv : (getResult env h).1 = toInt16 (hi * 256 + lo) := by
    rw [← hhi, ← hlo, getResult_eq]
    simp only [transfer, digitalWrite, Hw.log]
    rw [shift_or_eq _ _ (Nat.mod_lt _ (by norm_num))]
    simp
  rw [hv]
  unfold toInt16
  refine ⟨?_, ?_, ?_, ?_, ?_⟩
  · split <;> omega
  · split <;> omega
  · split <;> omega
  · rintro rfl rfl; decide
  · rintro rfl rfl; decide

/-- Witness for C3: a device answering `0x12` then `0x34`. -/
theorem getResult_value_witness :
    -32768 ≤ (getResult Env.answers1234 Hw.init).1
      ∧ (getResult Env.answers1234 Hw.init).1 < 32768
      ∧ (getResult Env.answers1234 Hw.init).1 % 65536 = ((0x12 * 256 + 0x34 : Nat) : Int)
      ∧ (0x12 = 0x12 → 0x34 = 0x34 → (getResult Env.answers1234 Hw.init).1 = 4660)
      ∧ (0x12 = 0xFF → 0x34 = 0xFF → (getResult Env.answers1234 Hw.init).1 = -1) :=
  getResult_value Env.answers1234 Hw.init 0x12 0x34 rfl rfl

/-- C4: for every period rank `r` in 0..7, `read` called with timeout 0 runs with
exactly the table value for `r`: it behaves as `read` called with that value, on
every hardware behaviour; rank 3 resolves to 4001. -/
theorem read_default_timeout (env : Env) (fuel a r : Nat) (result : Int) (h : Hw)
    (hr : r ≤ 7) :
    resolveTimeout 0 r = some ([501, 1001, 2001, 4001, 7501, 15001, 35501, 60001].getD r 0)
      ∧ read env fuel a r result 0 h
          = read env fuel a r result
              ([501, 1001, 2001, 4001, 7501, 15001, 35501, 60001].getD r 0) h
      ∧ resolveTimeout 0 3 = some 4001 := by
  have key : resolveTimeout 0 r
      = some ([501, 1001, 2001, 4001, 7501, 15001, 35501, 60001].getD r 0)
      ∧ resolveTimeout ([501, 1001, 2001, 4001, 7501, 15001, 35501, 60001].getD r 0) r
      = some ([501, 1001, 2001, 4001, 7501, 15001, 35501, 60001].getD r 0) := by
    interval_cases r <;> exact ⟨rfl, rfl⟩
  refine ⟨key.1, ?_, rfl⟩
  rw [read_valid env fuel a r result 0 _ h hr key.1, read_valid env fuel a r result _ _ h hr key.2]

/-- Witness for C4: rank 3 on axis Y against a device that never becomes ready. -/
theorem read_default_timeout_witness :
    resolveTimeout 0 3 = some ([501, 1001, 2001, 4001, 7501, 15001, 35501, 60001].getD 3 0)
      ∧ read Env.neverReady 9 1 3 0 0 Hw.init
          = read Env.neverReady 9 1 3 0
              ([501, 1001, 2001, 4001, 7501, 15001, 35501, 60001].getD 3 0) Hw.init
      ∧ resolveTimeout 0 3 = some 4001 :=
  read_default_timeout Env.neverReady 9 1 3 0 Hw.init (by decide)

/-! ## Poll timeout -/

/-- C9: for a valid period rank, if the ready-poll of `read` times out then `read`
returns false, the only byte transferred during the call is the command byte,
`result` is unchanged and CHIP-SELECT is low on return. -/
theorem read_poll_timeout (env : Env) (fuel a p : Nat) (result : Int) (timeout D : Nat)
    (h hloop : Hw) (hp : p ≤ 7) (hD : resolveTimeout timeout p = some D)
    (hto : pollLoop env (startStamp env a p h) D fuel (loopEntry env a p h)
      = some (false, hloop)) :
    read env fuel a p result timeout h = some (false, result, hloop)
      ∧ (∃ added, hloop.trace = h.trace ++ added ∧ sentBytes added = [buildCommand a p])
      ∧ hloop.chipSelect = false := by
  have hrun : read env fuel a p result timeout h = some (false, result, hloop) := by
    rw [read_valid env fuel a p result timeout D h hp hD, hto]
  obtain ⟨added, e1, e2, _, e4, _⟩ := read_effects env fuel a p result timeout h _ _ _ hp hrun
  exact ⟨hrun, ⟨added, e1, by simpa using e2⟩, by simpa using e4⟩

/-- Witness for C9: axis Z at rank 0 against a device that never becomes ready;
the first clock sample after the first poll is already past 501 us. -/
theorem read_poll_timeout_witness :
    ∃ hloop, pollLoop Env.neverReady (startStamp Env.neverReady 2 0 Hw.init) 501 1
          (loopEntry Env.neverReady 2 0 Hw.init) = some (false, hloop)
      ∧ read Env.neverReady 1 2 0 7 0 Hw.init = some (false, 7, hloop)
      ∧ (∃ added, hloop.trace = Hw.init.trace ++ added ∧ sentBytes added = [buildCommand 2 0])
      ∧ hloop.chipSelect = false :=
  ⟨_, rfl, read_poll_timeout Env.neverReady 1 2 0 7 0 501 Hw.init _ (by decide) rfl rfl⟩

/-! ## Poll deadline -/

/-- C6: after `update`, whatever `mValid` was before, the flag is true exactly when
the X, Y and Z reads all succeeded; a failed axis holds 0 and a succeeded axis
holds the value composed from its own two result bytes.  In particular, if X
fails and Y and Z succeed the sample is invalid, x is 0 and y, z are their
readings. -/
theorem update_sample (env : Env) (fuel : Nat) (m m' : Magnetometer) (h h' : Hw)
    (hrun : update env fuel m h = some (m', h')) :
    ∃ okX rX hX okY rY hY okZ rZ hZ,
      read env fuel 0 MM_PERIOD_32 0 0
          (spiConfigure (delay 2 (digitalWrite Pin.chipSelect false h))) = some (okX, rX, hX)
      ∧ read env fuel 1 MM_PERIOD_32 0 0 hX = some (okY, rY, hY)
      ∧ read env fuel 2 MM_PERIOD_32 0 0 hY = some (okZ, rZ, hZ)
      ∧ (m'.mValid = true ↔ (okX = true ∧ okY = true ∧ okZ = true))
      ∧ m'.mValueX = (if okX then rX else 0)
      ∧ m'.mValueY = (if okY then rY else 0)
      ∧ m'.mValueZ = (if okZ then rZ else 0)
      ∧ (okX = true → ∃ pre, hX.trace = pre ++ resultOps ∧ rX = resultValue env pre)
      ∧ (okY = true → ∃ pre, hY.trace = pre ++ resultOps ∧ rY = resultValue env pre)
      ∧ (okZ = true → ∃ pre, hZ.trace = pre ++ resultOps ∧ rZ = resultValue env pre)
      ∧ (okX = false → okY = true → okZ = true →
          m'.mValid = false ∧ m'.mValueX = 0 ∧ m'.mValueY = rY ∧ m'.mValueZ = rZ) := by
  obtain ⟨okX, rX, hX, okY, rY, hY, okZ, rZ, hZ, hx, hy, hz, _, hm⟩ :=
    update_inv env fuel m m' h h' hrun
  obtain ⟨_, _, _, _, _, _, _, vX⟩ := read_effects env fuel 0 0 0 0 _ okX rX hX (by decide) hx
  obtain ⟨_, _, _, _, _, _, _, vY⟩ := read_effects env fuel 1 0 0 0 _ okY rY hY (by decide) hy
  obtain ⟨_, _, _, _, _, _, _, vZ⟩ := read_effects env fuel 2 0 0 0 _ okZ rZ hZ (by decide) hz
  refine ⟨okX, rX, hX, okY, rY, hY, okZ, rZ, hZ, hx, hy, hz, ?_, ?_, ?_, ?_, vX, vY, vZ, ?_⟩
  · rw [hm]; simp [and_assoc]
  · rw [hm]
  · rw [hm]
  · rw [hm]
  · rintro rfl rfl rfl
    rw [hm]; simp

/-- Witness for C6: X times out, Y reads `0x1234`, Z reads `0xFFFF`. -/
theorem update_sample_witness :
    ∃ m' h', update Env.xTimesOut 1 Magnetometer.new Hw.init = some (m', h')
      ∧ m' = { mValueX := 0, mValueY := 4660, mValueZ := -1, mValid := false }
      ∧ ∃ okX rX hX okY rY hY okZ rZ hZ,
        read Env.xTimesOut 1 0 MM_PERIOD_32 0 0
            (spiConfigure (delay 2 (digitalWrite Pin.chipSelect false Hw.init)))
          = some (okX, rX, hX)
        ∧ read Env.xTimesOut 1 1 MM_PERIOD_32 0 0 hX = some (okY, rY, hY)
        ∧ read Env.xTimesOut 1 2 MM_PERIOD_32 0 0 hY = some (okZ, rZ, hZ)
        ∧ (m'.mValid = true ↔ (okX = true ∧ okY = true ∧ okZ = true))
        ∧ m'.mValueX = (if okX then rX else 0)
        ∧ m'.mValueY = (if okY then rY else 0)
        ∧ m'.mValueZ = (if okZ then rZ else 0)
        ∧ (okX = true → ∃ pre, hX.trace = pre ++ resultOps ∧ rX = resultValue Env.xTimesOut pre)
        ∧ (okY = true → ∃ pre, hY.trace = pre ++ resultOps ∧ rY = resultValue Env.xTimesOut pre)
        ∧ (okZ = true → ∃ pre, hZ.trace = pre ++ resultOps ∧ rZ = resultValue Env.xTimesOut pre)
        ∧ (okX = false → okY = true → okZ = true →
            m'.mValid = false ∧ m'.mValueX = 0 ∧ m'.mValueY = rY ∧ m'.mValueZ = rZ) :=
  ⟨_, _, rfl, rfl, update_sample Env.xTimesOut 1 Magnetometer.new _ Hw.init _ rfl⟩

/-- Counterexample to C8 as stated: with a device that is ready at once, `update`
writes CHIP-SELECT low, then per axis low (trigger), low, high (`getResult`),
and finally high: the device is deselected after the X read and after the Y
read, before the Z read has started. -/
theorem update_deselects_between_axes :
    (update Env.alwaysReady 1 Magnetometer.new Hw.init).map
        (fun r => chipSelectWrites r.2.trace)
      = some [false, false, false, true, false, false, true, false, false, true, true] :=
  rfl

/-- C8, amended: during `update` CHIP-SELECT is driven low at the start and at
every conversion trigger; it is driven high at the end of every axis read that
succeeds (by `getResult`, after a further low write) and once more after the Z
read.  An axis read that fails drives no high level, so only when all three
reads fail is the final write the only high one. -/
theorem update_chip_select_writes (env : Env) (fuel : Nat) (m m' : Magnetometer) (h h' : Hw)
    (hrun : update env fuel m h = some (m', h')) :
    ∃ okX rX hX okY rY hY okZ rZ hZ added,
      read env fuel 0 MM_PERIOD_32 0 0
          (spiConfigure (delay 2 (digitalWrite Pin.chipSelect false h))) = some (okX, rX, hX)
      ∧ read env fuel 1 MM_PERIOD_32 0 0 hX = some (okY, rY, hY)
      ∧ read env fuel 2 MM_PERIOD_32 0 0 hY = some (okZ, rZ, hZ)
      ∧ h'.trace = h.trace ++ added
      ∧ chipSelectWrites added = false :: (false :: (if okX then [false, true] else [])
          ++ (false :: (if okY then [false, true] else [])
          ++ (false :: (if okZ then [false, true] else []) ++ [true])))
      ∧ (chipSelectWrites added).count true = okX.toNat + okY.toNat + okZ.toNat + 1
      ∧ (okX = false → okY = false → okZ = false →
          chipSelectWrites added = [false, false, false, false, true]) := by
  obtain ⟨okX, rX, hX, okY, rY, hY, okZ, rZ, hZ, added, hx, hy, hz, ht, _, hc⟩ :=
    update_trace env fuel m m' h h' hrun
  refine ⟨okX, rX, hX, okY, rY, hY, okZ, rZ, hZ, added, hx, hy, hz, ht, hc, ?_, ?_⟩
  · rw [hc]
    cases okX <;> cases okY <;> cases okZ <;> decide
  · rintro rfl rfl rfl
    rw [hc]; rfl

/-- Witness for amended C8: X times out, Y and Z succeed; two mid-pass deselects. -/
theorem update_chip_select_writes_witness :
    ∃ m' h', update Env.xTimesOut 1 Magnetometer.new Hw.init = some (m', h')
      ∧ chipSelectWrites h'.trace = [false, false, false, false, true, false, false, true, true]
      ∧ ∃ okX rX hX okY rY hY okZ rZ hZ added,
        read Env.xTimesOut 1 0 MM_PERIOD_32 0 0
            (spiConfigure (delay 2 (digitalWrite Pin.chipSelect false Hw.init)))
          = some (okX, rX, hX)
        ∧ read Env.xTimesOut 1 1 MM_PERIOD_32 0 0 hX = some (okY, rY, hY)
        ∧ read Env.xTimesOut 1 2 MM_PERIOD_32 0 0 hY = some (okZ, rZ, hZ)
        ∧ h'.trace = Hw.init.trace ++ added
        ∧ chipSelectWrites added = false :: (false :: (if okX then [false, true] else [])
            ++ (false :: (if okY then [false, true] else [])
            ++ (false :: (if okZ then [false, true] else []) ++ [true])))
        ∧ (chipSelectWrites added).count true = okX.toNat + okY.toNat + okZ.toNat + 1
        ∧ (okX = false → okY = false → okZ = false →
            chipSelectWrites added = [false, false, false, false, true]) :=
  ⟨_, _, rfl, rfl, update_chip_select_writes Env.xTimesOut 1 Magnetometer.new _ Hw.init _ rfl⟩

/-! ## Initialization, result read, wrap-around: lemmas -/

theorem sampleCount_append (l1 l2 : List Op) :
    sampleCount (l1 ++ l2) = sampleCount l1 + sampleCount l2 := by
  induction l1 with
  | nil => simp [sampleCount]
  | cons op rest ih =>
    cases op with
    | micros => simp [sampleCount, ih]; omega
    | _ => simp [sampleCount, ih]

theorem highNibble_buildCommand (a p : Nat) (hp : p ≤ 7) :
    buildCommand a p / 16 = ((a + 1) % 256 / 16) ||| p := by
  rw [buildCommand_eq]
  have e16 : (16 : Nat) = 2 ^ 4 := by norm_num
  have e256 : (256 : Nat) = 2 ^ 8 := by norm_num
  rw [e16, e256, ← Nat.shiftRight_eq_div_pow, ← Nat.shiftRight_eq_div_pow]
  apply Nat.eq_of_testBit_eq
  intro i
  simp only [Nat.testBit_shiftRight, Nat.testBit_mod_two_pow, Nat.testBit_or,
    Nat.testBit_shiftLeft]
  by_cases hi : i < 4
  · have h1 : 4 + i < 8 := by omega
    simp [h1]
  · have h1 : ¬ 4 + i < 8 := by omega
    have h2 : p.testBit i = false := by
      apply Nat.testBit_lt_two_pow
      calc p < 2 ^ 3 := by norm_num; omega
        _ ≤ 2 ^ i := Nat.pow_le_pow_right (by norm_num) (by omega)
    simp [h1, h2]

theorem setup_eq (env : Env) (fuel drdy reset ssnot : Nat) (h : Hw) :
    setup env fuel drdy reset ssnot h =
      match read env fuel 0 MM_PERIOD_32 0 0 (setupEntry drdy reset ssnot h) with
      | none => none
      | some (ok, _, h8) => some (ok, h8) := by
  have e : digitalWrite Pin.chipSelect true (digitalWrite Pin.reset false
      (digitalWrite Pin.dataReady true ((((spiConfigure h).log
        (Op.pinReset Pin.dataReady drdy false)).log (Op.pinReset Pin.reset reset true)).log
        (Op.pinReset Pin.chipSelect ssnot true)))) = setupEntry drdy reset ssnot h := by
    simp [digitalWrite, Hw.log, spiConfigure, setupEntry, setupOps]
  rw [← e]
  rfl

theorem pollLoop_congr (env env2 : Env) (hdr : env2.dataReady = env.dataReady)
    (hclk : env2.clock = env.clock) (t D : Nat) :
    ∀ (fuel : Nat) (h : Hw), pollLoop env2 t D fuel h = pollLoop env t D fuel h := by
  intro fuel
  induction fuel with
  | zero => intro h; rfl
  | succ f ih =>
    intro h
    rw [pollLoop_succ, pollLoop_succ, ih]
    simp only [pollSees, elapsedAt, hdr, hclk]

/-- The return value and the hardware state of `read` do not depend on the bytes
the device drives back. -/
theorem read_congr (env env2 : Env) (hdr : env2.dataReady = env.dataReady)
    (hclk : env2.clock = env.clock) (fuel a p : Nat) (result : Int) (timeout : Nat) (h : Hw)
    (ok : Bool) (r : Int) (h' : Hw) (hp : p ≤ 7)
    (hrun : read env fuel a p result timeout h = some (ok, r, h')) :
    ∃ r2, read env2 fuel a p result timeout h = some (ok, r2, h') := by
  obtain ⟨D, hD⟩ := resolveTimeout_valid timeout p hp
  rw [read_valid env fuel a p result timeout D h hp hD] at hrun
  rw [read_valid env2 fuel a p result timeout D h hp hD]
  have e1 : startStamp env2 a p h = startStamp env a p h := by
    unfold startStamp
    rw [convert_valid env2 a p h hp, convert_valid env a p h hp]
    simp [micros, hclk]
  have e2 : loopEntry env2 a p h = loopEntry env a p h := by
    rw [loopEntry_eq env2 a p h hp, loopEntry_eq env a p h hp]
  rw [e1, e2, pollLoop_congr env env2 hdr hclk]
  rcases Option.eq_none_or_eq_some
      (pollLoop env (startStamp env a p h) D fuel (loopEntry env a p h)) with hl | ⟨⟨ok3, h3⟩, hl⟩
  · rw [hl] at hrun; simp at hrun
  · rw [hl] at hrun ⊢
    cases ok3 with
    | false =>
      simp only [Option.some.injEq, Prod.mk.injEq] at hrun
      exact ⟨result, by rw [← hrun.1, ← hrun.2.2]⟩
    | true =>
      simp only [Option.some.injEq, Prod.mk.injEq] at hrun
      have e3 : (getResult env2 h3).2 = (getResult env h3).2 := by
        rw [getResult_eq env2, getResult_eq env]
      refine ⟨(getResult env2 h3).1, ?_⟩
      show some (true, (getResult env2 h3).1, (getResult env2 h3).2) = _
      rw [← hrun.1, ← hrun.2.2, e3]

/-! ## Initialization -/

/-- C11: `setup` returns exactly the outcome of its one throwaway read (axis 0,
period rank 0, timeout argument 0), whose command byte is `0x01`; the value read
is discarded, so a device that differs only in the bytes it drives back gives
the same return value (and the same hardware trace). -/
theorem setup_single_read (env env2 : Env) (fuel drdy reset ssnot : Nat) (h h' : Hw)
    (ok : Bool) (hrun : setup env fuel drdy reset ssnot h = some (ok, h'))
    (hdr : env2.dataReady = env.dataReady) (hclk : env2.clock = env.clock) :
    (∃ r, read env fuel 0 MM_PERIOD_32 0 0 (setupEntry drdy reset ssnot h) = some (ok, r, h'))
      ∧ (∃ added, h'.trace = h.trace ++ setupOps drdy reset ssnot ++ added
          ∧ sentBytes added = 0x01 :: (if ok then [0, 0] else []))
      ∧ sentBytes (setupOps drdy reset ssnot) = []
      ∧ setup env2 fuel drdy reset ssnot h = some (ok, h') := by
  rw [setup_eq] at hrun
  rcases Option.eq_none_or_eq_some
      (read env fuel 0 MM_PERIOD_32 0 0 (setupEntry drdy reset ssnot h)) with
    hr | ⟨⟨ok1, r1, h1⟩, hr⟩
  · rw [hr] at hrun; simp at hrun
  rw [hr] at hrun
  simp only [Option.some.injEq, Prod.mk.injEq] at hrun
  obtain ⟨rfl, rfl⟩ := hrun
  obtain ⟨added, e1, e2, _⟩ := read_effects env fuel 0 0 0 0 _ ok1 r1 h1 (by decide) hr
  obtain ⟨r2, hr2⟩ := read_congr env env2 hdr hclk fuel 0 0 0 0 _ ok1 r1 h1 (by decide) hr
  refine ⟨⟨r1, hr⟩, ⟨added, ?_, ?_⟩, rfl, ?_⟩
  · rw [e1]; rfl
  · rw [e2]; rfl
  · rw [setup_eq]
    have : read env2 fuel 0 MM_PERIOD_32 0 0 (setupEntry drdy reset ssnot h)
        = some (ok1, r2, h1) := hr2
    rw [this]

/-- Witness for C11: a ready device answering `0x12 0x34`, compared with a ready
device answering zeros. -/
theorem setup_single_read_witness :
    ∃ h', setup Env.answers1234 1 2 3 4 Hw.init = some (true, h')
      ∧ (∃ r, read Env.answers1234 1 0 MM_PERIOD_32 0 0 (setupEntry 2 3 4 Hw.init)
            = some (true, r, h'))
      ∧ (∃ added, h'.trace = Hw.init.trace ++ setupOps 2 3 4 ++ added
          ∧ sentBytes added = 0x01 :: (if true then [0, 0] else []))
      ∧ sentBytes (setupOps 2 3 4) = []
      ∧ setup Env.alwaysReady 1 2 3 4 Hw.init = some (true, h') :=
  ⟨_, rfl, setup_single_read Env.answers1234 Env.alwaysReady 1 2 3 4 Hw.init _ true rfl rfl rfl⟩

/-! ## Result read -/

/-- C13: `getResult` issues exactly CHIP-SELECT low, two transfers of the
placeholder byte 0 and CHIP-SELECT high; it polls nothing and samples no clock,
leaves RESET as it was and returns with CHIP-SELECT high whatever its level on
entry. -/
theorem getResult_frame (env : Env) (h : Hw) :
    (getResult env h).2.trace = h.trace ++
        [Op.digitalWrite Pin.chipSelect false, Op.transfer 0, Op.transfer 0,
         Op.digitalWrite Pin.chipSelect true]
      ∧ sentBytes (getResult env h).2.trace = sentBytes h.trace ++ [0, 0]
      ∧ pollCount (getResult env h).2.trace = pollCount h.trace
      ∧ sampleCount (getResult env h).2.trace = sampleCount h.trace
      ∧ (getResult env h).2.reset = h.reset
      ∧ (getResult env h).2.chipSelect = true := by
  rw [getResult_eq]
  simp [resultOps, sentBytes_append, sentBytes, pollCount_append, pollCount,
    sampleCount_append, sampleCount]

/-! ## Elapsed time across counter wrap-around -/

/-- C16: with a 32-bit counter, a start timestamp `t` and a sample taken `e` us
later (`e < 2^32`, the counter reading being `(t + e) mod 2^32`), the difference
the loop computes is `e`; so after an inactive poll the loop returns false exactly
when `e` exceeds the timeout, and otherwise goes on polling. -/
theorem elapsed_across_wraparound (t e : Nat) (ht : t < 2 ^ 32) (he : e < 2 ^ 32) :
    subU32 ((t + e) % 2 ^ 32) t = e
      ∧ (∀ (env : Env) (D fuel : Nat) (h : Hw),
          env.dataReady h.trace = false →
          env.clock (h.trace ++ [Op.digitalRead Pin.dataReady]) % 2 ^ 32 = (t + e) % 2 ^ 32 →
          pollLoop env t D (fuel + 1) h =
            if e > D then some (false, h.afterIdlePoll)
            else pollLoop env t D fuel h.afterIdlePoll) := by
  have key : subU32 ((t + e) % 2 ^ 32) t = e := by
    unfold subU32
    norm_num
    omega
  refine ⟨key, ?_⟩
  intro env D fuel h hidle hclock
  rw [pollLoop_succ]
  have h1 : pollSees env h 0 = false := by simpa [pollSees, pollTrace] using hidle
  have h2 : elapsedAt env t h 0 = e := by
    unfold elapsedAt
    simp only [pollTrace, List.append_nil]
    rw [hclock, key]
  simp [h1, h2]

/-- Witness for C16: the counter overflows between the timestamp `2^32 - 10` and
the sample 15 us later, which reads 5. -/
theorem elapsed_across_wraparound_witness :
    subU32 5 (2 ^ 32 - 10) = 15
      ∧ (∀ (env : Env) (D fuel : Nat) (h : Hw),
          env.dataReady h.trace = false →
          env.clock (h.trace ++ [Op.digitalRead Pin.dataReady]) % 2 ^ 32 = 5 →
          pollLoop env (2 ^ 32 - 10) D (fuel + 1) h =
            if 15 > D then some (false, h.afterIdlePoll)
            else pollLoop env (2 ^ 32 - 10) D fuel h.afterIdlePoll) :=
  elapsed_across_wraparound (2 ^ 32 - 10) 15 (by norm_num) (by norm_num)

/-! ## Pin levels after a full-sample pass -/

/-- C17: whenever `update` returns, whatever the hardware did and whichever axes
succeeded or timed out, CHIP-SELECT is high and RESET is low. -/
theorem update_leaves_deselected (env : Env) (fuel : Nat) (m m' : Magnetometer) (h h' : Hw)
    (hrun : update env fuel m h = some (m', h')) :
    h'.chipSelect = true ∧ h'.reset = false := by
  obtain ⟨okX, rX, hX, okY, rY, hY, okZ, rZ, hZ, _, _, hz, hh', _⟩ :=
    update_inv env fuel m m' h h' hrun
  obtain ⟨_, _, _, _, _, hr, _⟩ := read_effects env fuel 2 0 0 0 _ okZ rZ hZ (by decide) hz
  rw [hh']
  simp [digitalWrite, Hw.log, hr]

/-- Witness for C17: X times out, Y and Z succeed. -/
theorem update_leaves_deselected_witness :
    ∃ m' h', update Env.xTimesOut 1 Magnetometer.new Hw.init = some (m', h')
      ∧ h'.chipSelect = true ∧ h'.reset = false :=
  ⟨_, _, rfl, update_leaves_deselected Env.xTimesOut 1 Magnetometer.new _ Hw.init _ rfl⟩

/-! ## Command byte for arbitrary arguments -/

/-- Counterexample to C12 as stated: for axis argument 127 and period rank 0 the
byte `convert` transfers is `0x80`, whose high nibble is 8, neither at most 7 nor
the requested rank 0; for axis argument 15 it is `0x10`, high nibble 1. -/
theorem convert_axis_spills_into_period_nibble :
    sentBytes (convert Env.alwaysReady 127 0 Hw.init).2.trace = [0x80]
      ∧ 0x80 / 16 = 8
      ∧ sentBytes (convert Env.alwaysReady 15 0 Hw.init).2.trace = [0x10]
      ∧ 0x10 / 16 = 1 := by
  decide

/-- C12, amended: for a period rank of 8 or more `convert` and `read` transfer
nothing.  For a rank `p` in 0..7 the one command byte (of `convert`, and of
`read`, which adds only zero placeholders) has high nibble
`((axis + 1) mod 256 div 16) | p`; for every axis argument in 0..14, which
includes X, Y and Z, that is `p` itself, hence at most 7. -/
theorem command_high_nibble (env : Env) (fuel a p : Nat) (result : Int) (timeout : Nat)
    (h : Hw) :
    (8 ≤ p → (convert env a p h).2 = h
        ∧ read env fuel a p result timeout h = some (false, result, h))
      ∧ (p ≤ 7 →
          sentBytes (convert env a p h).2.trace = sentBytes h.trace ++ [buildCommand a p]
          ∧ (∀ ok r h', read env fuel a p result timeout h = some (ok, r, h') →
              ∃ added, h'.trace = h.trace ++ added
                ∧ sentBytes added = buildCommand a p :: (if ok then [0, 0] else []))
          ∧ buildCommand a p / 16 = ((a + 1) % 256 / 16) ||| p
          ∧ (a ≤ 14 → buildCommand a p / 16 = p ∧ buildCommand a p / 16 ≤ 7)) := by
  constructor
  · intro hp
    have hc := convert_invalid env a p h hp
    refine ⟨by rw [hc], ?_⟩
    simp [read, hc]
  · intro hp
    have hn := highNibble_buildCommand a p hp
    refine ⟨?_, ?_, hn, ?_⟩
    · rw [convert_valid env a p h hp]
      simp [sentBytes_append, sentBytes]
    · intro ok r h' hrun
      obtain ⟨added, e1, e2, _⟩ := read_effects env fuel a p result timeout h ok r h' hp hrun
      exact ⟨added, e1, e2⟩
    · intro ha
      have h0 : (a + 1) % 256 / 16 = 0 := by omega
      rw [hn, h0, Nat.zero_or]
      exact ⟨rfl, hp⟩

/-- Witness for amended C12: rank 8 on axis Z sends nothing; rank 3 on axis Z
sends a byte with high nibble 3. -/
theorem command_high_nibble_witness :
    ((convert Env.alwaysReady 2 8 Hw.init).2 = Hw.init
        ∧ read Env.alwaysReady 1 2 8 0 0 Hw.init = some (false, 0, Hw.init))
      ∧ sentBytes (convert Env.alwaysReady 2 3 Hw.init).2.trace
          = sentBytes Hw.init.trace ++ [buildCommand 2 3]
      ∧ (∀ ok r h', read Env.alwaysReady 1 2 3 0 0 Hw.init = some (ok, r, h') →
          ∃ added, h'.trace = Hw.init.trace ++ added
            ∧ sentBytes added = buildCommand 2 3 :: (if ok then [0, 0] else []))
      ∧ buildCommand 2 3 / 16 = ((2 + 1) % 256 / 16) ||| 3
      ∧ buildCommand 2 3 / 16 = 3 ∧ buildCommand 2 3 / 16 ≤ 7 := by
  have h8 := (command_high_nibble Env.alwaysReady 1 2 8 0 0 Hw.init).1 (by decide)
  have h3 := (command_high_nibble Env.alwaysReady 1 2 3 0 0 Hw.init).2 (by decide)
  exact ⟨h8, h3.1, h3.2.1, h3.2.2.1, h3.2.2.2 (by decide)⟩

/-! ## Why `read` returns false -/

/-- C14: when `convert` has succeeded the period rank is in 0..7 and has a table
entry, so the timeout lookup never takes its `default` branch; and `read`
returns false only for an invalid period, with the hardware untouched, or
because the poll loop timed out. -/
theorem read_false_causes (env : Env) (fuel a p : Nat) (result : Int) (timeout : Nat)
    (h : Hw) :
    ((convert env a p h).1 = true →
        p ≤ 7 ∧ (∃ D, defaultTimeout p = some D) ∧ ∃ D, resolveTimeout timeout p = some D)
      ∧ (∀ r h', read env fuel a p result timeout h = some (false, r, h') →
          (8 ≤ p ∧ r = result ∧ h' = h)
          ∨ (p ≤ 7 ∧ r = result ∧ ∃ D, resolveTimeout timeout p = some D
              ∧ pollLoop env (startStamp env a p h) D fuel (loopEntry env a p h)
                  = some (false, h'))) := by
  constructor
  · intro hc
    have hp : p ≤ 7 := by
      by_contra hlt
      rw [convert_invalid env a p h (by omega)] at hc
      cases hc
    refine ⟨hp, ?_, resolveTimeout_valid timeout p hp⟩
    have := resolveTimeout_valid 0 p hp
    simpa [resolveTimeout] using this
  · intro r h' hrun
    by_cases hp : p ≤ 7
    · right
      obtain ⟨D, hD⟩ := resolveTimeout_valid timeout p hp
      rw [read_valid env fuel a p result timeout D h hp hD] at hrun
      rcases Option.eq_none_or_eq_some
          (pollLoop env (startStamp env a p h) D fuel (loopEntry env a p h)) with
        hl | ⟨⟨ok3, h3⟩, hl⟩
      · rw [hl] at hrun; simp at hrun
      · rw [hl] at hrun
        cases ok3 with
        | true => simp at hrun
        | false =>
          simp only [Option.some.injEq, Prod.mk.injEq, true_and] at hrun
          exact ⟨hp, hrun.1.symm, D, hD, by rw [hl, hrun.2]⟩
    · left
      have hc := convert_invalid env a p h (by omega)
      simp [read, hc] at hrun
      exact ⟨by omega, hrun.1.symm, hrun.2.symm⟩

/-- Witness for C14: axis Z at rank 0 against a device that never becomes ready. -/
theorem read_false_causes_witness :
    ∃ h', read Env.neverReady 1 2 0 7 0 Hw.init = some (false, 7, h')
      ∧ (0 ≤ 7 ∧ (∃ D, defaultTimeout 0 = some D) ∧ ∃ D, resolveTimeout 0 0 = some D)
      ∧ ((8 ≤ 0 ∧ (7 : Int) = 7 ∧ h' = Hw.init)
          ∨ (0 ≤ 7 ∧ (7 : Int) = 7 ∧ ∃ D, resolveTimeout 0 0 = some D
              ∧ pollLoop Env.neverReady (startStamp Env.neverReady 2 0 Hw.init) D 1
                  (loopEntry Env.neverReady 2 0 Hw.init) = some (false, h'))) :=
  ⟨_, rfl, (read_false_causes Env.neverReady 1 2 0 7 0 Hw.init).1 rfl,
    (read_false_causes Env.neverReady 1 2 0 7 0 Hw.init).2 _ _ rfl⟩

/-! ## Termination of the poll loop -/

theorem pollTrace_snoc (n : Nat) :
    pollTrace (n + 1) = pollTrace n ++ [Op.digitalRead Pin.dataReady, Op.micros] := by
  induction n with
  | zero => rfl
  | succ n ih =>
    show _ :: _ :: pollTrace (n + 1) = (_ :: _ :: pollTrace n) ++ _
    rw [ih]
    rfl

/-- A loop in which no poll is active and no sample is past the timeout never
returns. -/
theorem pollLoop_spins (env : Env) (t D : Nat) :
    ∀ (fuel : Nat) (h : Hw),
      (∀ i, pollSees env h i = false ∧ elapsedAt env t h i ≤ D) →
      pollLoop env t D fuel h = none := by
  intro fuel
  induction fuel with
  | zero => intro h _; rfl
  | succ f ih =>
    intro h hidle
    rw [pollLoop_succ]
    have h0 := hidle 0
    have hnot : ¬ elapsedAt env t h 0 > D := by omega
    simp only [h0.1, hnot, if_false, Bool.false_eq_true]
    exact ih h.afterIdlePoll (fun i => by
      rw [pollSees_shift, elapsedAt_shift]; exact hidle (i + 1))

/-- The poll loop returns within `D + 1` polls when the clock moves on by at least
1 and at most `B` between successive samples and `D + B` fits the counter. -/
theorem pollLoop_total (env : Env) (t D B fuel c0 : Nat) (h : Hw)
    (ht : t = c0 % 2 ^ 32)
    (h0lo : c0 + 1 ≤ env.clock (h.trace ++ pollTrace 0 ++ [Op.digitalRead Pin.dataReady]))
    (h0hi : env.clock (h.trace ++ pollTrace 0 ++ [Op.digitalRead Pin.dataReady]) ≤ c0 + B)
    (hlo : ∀ k, env.clock (h.trace ++ pollTrace k ++ [Op.digitalRead Pin.dataReady]) + 1
      ≤ env.clock (h.trace ++ pollTrace (k + 1) ++ [Op.digitalRead Pin.dataReady]))
    (hhi : ∀ k, env.clock (h.trace ++ pollTrace (k + 1) ++ [Op.digitalRead Pin.dataReady])
      ≤ env.clock (h.trace ++ pollTrace k ++ [Op.digitalRead Pin.dataReady]) + B)
    (hB : D + B < 2 ^ 32) (hfuel : D < fuel) :
    ∃ ok h', pollLoop env t D fuel h = some (ok, h')
      ∧ pollCount h'.trace ≤ pollCount h.trace + (D + 1) := by
  -- true elapsed time at the sample after poll `k`
  have hge : ∀ k, c0 + (k + 1) ≤ env.clock (h.trace ++ pollTrace k ++ [Op.digitalRead Pin.dataReady]) := by
    intro k
    induction k with
    | zero => simpa using h0lo
    | succ k ih => have := hlo k; omega
  have helap : ∀ k, elapsedAt env t h k
      = (env.clock (h.trace ++ pollTrace k ++ [Op.digitalRead Pin.dataReady]) - c0) % 2 ^ 32 := by
    intro k
    unfold elapsedAt
    rw [ht]
    apply subU32_mod
    have := hge k
    omega
  have htrue : ∃ i, D < env.clock (h.trace ++ pollTrace i ++ [Op.digitalRead Pin.dataReady]) - c0 := by
    refine ⟨D, ?_⟩
    have := hge D
    omega
  classical
  have hi0 : Nat.find htrue ≤ D := by
    apply Nat.find_min'
    have := hge D
    omega
  have hsmall : env.clock (h.trace ++ pollTrace (Nat.find htrue) ++ [Op.digitalRead Pin.dataReady])
      - c0 ≤ D + B := by
    rcases Nat.eq_zero_or_pos (Nat.find htrue) with h0 | hpos
    · rw [h0]; omega
    · have hprev := Nat.find_min htrue (show Nat.find htrue - 1 < Nat.find htrue by omega)
      have := hhi (Nat.find htrue - 1)
      have e1 : Nat.find htrue - 1 + 1 = Nat.find htrue := by omega
      rw [e1] at this
      omega
  have hex : ∃ i, pollSees env h i = true ∨ D < elapsedAt env t h i := by
    refine ⟨Nat.find htrue, Or.inr ?_⟩
    rw [helap, Nat.mod_eq_of_lt (by omega)]
    exact Nat.find_spec htrue
  have hj : Nat.find hex ≤ D := by
    have : Nat.find hex ≤ Nat.find htrue := by
      apply Nat.find_min'
      right
      rw [helap, Nat.mod_eq_of_lt (by omega)]
      exact Nat.find_spec htrue
    omega
  have hidle : ∀ i, i < Nat.find hex → pollSees env h i = false ∧ elapsedAt env t h i ≤ D := by
    intro i hi
    have := Nat.find_min hex hi
    simp only [not_or, Bool.not_eq_true, not_lt] at this
    exact this
  by_cases hact : pollSees env h (Nat.find hex) = true
  · refine ⟨true, _, pollLoop_ready env t D (Nat.find hex) fuel h (by omega) hidle hact, ?_⟩
    simp only [pollCount_append, pollCount_pollTrace, pollCount]
    omega
  · have hfalse : pollSees env h (Nat.find hex) = false := by simpa using hact
    have hlate : D < elapsedAt env t h (Nat.find hex) := by
      rcases Nat.find_spec hex with h1 | h1
      · exact absurd h1 hact
      · exact h1
    refine ⟨false, _, pollLoop_timeout env t D (Nat.find hex) fuel h (by omega) hidle hfalse hlate, ?_⟩
    simp only [pollCount_append, pollCount_pollTrace]
    omega


theorem pollCount_resultOps : pollCount resultOps = 0 := rfl

/-- `read` returns, within `D + 1` polls, when the clock moves on by at least 1 and
at most `B` between successive samples and `D + B` fits the counter. -/
theorem read_total (env : Env) (B fuel a p : Nat) (result : Int) (timeout D : Nat) (h : Hw)
    (hp : p ≤ 7) (hD : resolveTimeout timeout p = some D)
    (hadv : ∀ tr, env.clock tr + 1 ≤ env.clock (tr ++ [Op.micros, Op.digitalRead Pin.dataReady]))
    (hmax : ∀ tr, env.clock (tr ++ [Op.micros, Op.digitalRead Pin.dataReady]) ≤ env.clock tr + B)
    (hB : D + B < 2 ^ 32) (hfuel : D < fuel) :
    ∃ ok r h', read env fuel a p result timeout h = some (ok, r, h')
      ∧ pollCount h'.trace ≤ pollCount h.trace + (D + 1) := by
  have hentry := loopEntry_eq env a p h hp
  have hstamp : startStamp env a p h = env.clock (h.trace ++ triggerOps a p) % 2 ^ 32 := by
    unfold startStamp
    rw [convert_valid env a p h hp]
    simp [micros, triggerOps]
  have e0 : (loopEntry env a p h).trace ++ pollTrace 0 ++ [Op.digitalRead Pin.dataReady]
      = (h.trace ++ triggerOps a p) ++ [Op.micros, Op.digitalRead Pin.dataReady] := by
    rw [hentry]; simp [pollTrace]
  have es : ∀ k, (loopEntry env a p h).trace ++ pollTrace (k + 1) ++ [Op.digitalRead Pin.dataReady]
      = ((loopEntry env a p h).trace ++ pollTrace k ++ [Op.digitalRead Pin.dataReady])
        ++ [Op.micros, Op.digitalRead Pin.dataReady] := by
    intro k
    rw [pollTrace_snoc]; simp
  obtain ⟨ok, h3, hloop, hcount⟩ := pollLoop_total env (startStamp env a p h) D B fuel
    (env.clock (h.trace ++ triggerOps a p)) (loopEntry env a p h) hstamp
    (by rw [e0]; exact hadv _) (by rw [e0]; exact hmax _)
    (fun k => by rw [es k]; exact hadv _) (fun k => by rw [es k]; exact hmax _) hB hfuel
  have hc0 : pollCount (loopEntry env a p h).trace = pollCount h.trace := by
    rw [hentry]
    simp [pollCount_append, pollCount_triggerOps, pollCount]
  rw [hc0] at hcount
  rw [read_valid env fuel a p result timeout D h hp hD, hloop]
  cases ok with
  | false => exact ⟨false, result, h3, rfl, hcount⟩
  | true =>
    refine ⟨true, _, _, rfl, ?_⟩
    rw [getResult_eq]
    simp only [pollCount_append, pollCount_resultOps]
    omega

/-- `update` returns when the clock moves on by at least 1 and at most `B` between
successive samples and `501 + B` fits the counter. -/
theorem update_total (env : Env) (B fuel : Nat) (m : Magnetometer) (h : Hw)
    (hadv : ∀ tr, env.clock tr + 1 ≤ env.clock (tr ++ [Op.micros, Op.digitalRead Pin.dataReady]))
    (hmax : ∀ tr, env.clock (tr ++ [Op.micros, Op.digitalRead Pin.dataReady]) ≤ env.clock tr + B)
    (hB : 501 + B < 2 ^ 32) (hfuel : 501 < fuel) :
    ∃ m' h', update env fuel m h = some (m', h') := by
  unfold update
  simp only
  obtain ⟨okX, rX, hX, hx, _⟩ := read_total env B fuel 0 MM_PERIOD_32 0 0 501
    (spiConfigure (delay 2 (digitalWrite Pin.chipSelect false h))) (by decide) rfl
    hadv hmax hB hfuel
  rw [readAxis_eq _ _ 0 _ _ _ _ _ hx]
  simp only
  obtain ⟨okY, rY, hY, hy, _⟩ := read_total env B fuel 1 MM_PERIOD_32 0 0 501 hX (by decide) rfl
    hadv hmax hB hfuel
  rw [readAxis_eq _ _ 1 _ _ _ _ _ hy]
  simp only
  obtain ⟨okZ, rZ, hZ, hz, _⟩ := read_total env B fuel 2 MM_PERIOD_32 0 0 501 hY (by decide) rfl
    hadv hmax hB hfuel
  rw [readAxis_eq _ _ 2 _ _ _ _ _ hz]
  exact ⟨_, _, rfl⟩

/-- C15, amended: if between successive clock samples (one `micros()` call, one
DATA-READY poll, the next `micros()` call) the microsecond clock moves on by at
least 1 and by at most `B`, where `D + B < 2^32` for the resolved timeout `D`,
then for every DATA-READY behaviour `read` returns after at most `D + 1` polls
(so within `D + 2`); with an invalid period it returns at once; and `update`,
whose three reads run with `D = 501`, returns as well.  Fuel above `D` is enough. -/
theorem poll_loop_terminates (env : Env) (B fuel a p timeout : Nat) (result : Int)
    (m : Magnetometer) (h : Hw)
    (hadv : ∀ tr, env.clock tr + 1 ≤ env.clock (tr ++ [Op.micros, Op.digitalRead Pin.dataReady]))
    (hmax : ∀ tr, env.clock (tr ++ [Op.micros, Op.digitalRead Pin.dataReady])
      ≤ env.clock tr + B) :
    (∀ D, p ≤ 7 → resolveTimeout timeout p = some D → D + B < 2 ^ 32 → D < fuel →
        ∃ ok r h', read env fuel a p result timeout h = some (ok, r, h')
          ∧ pollCount h'.trace ≤ pollCount h.trace + (D + 1))
      ∧ (8 ≤ p → read env fuel a p result timeout h = some (false, result, h))
      ∧ (501 + B < 2 ^ 32 → 501 < fuel → ∃ m' h', update env fuel m h = some (m', h')) := by
  refine ⟨fun D hp hD hB hfuel => read_total env B fuel a p result timeout D h hp hD hadv hmax
    hB hfuel, fun hp => ?_, fun hB hfuel => update_total env B fuel m h hadv hmax hB hfuel⟩
  simp [read, convert_invalid env a p h hp]

/-- Witness for amended C15: 2 us per call (4 us between samples) and a dead
DATA-READY line. -/
theorem poll_loop_terminates_witness :
    (∃ ok r h', read Env.quickCallsDead 502 0 0 0 0 Hw.init = some (ok, r, h')
        ∧ pollCount h'.trace ≤ pollCount Hw.init.trace + (501 + 1))
      ∧ (∃ m' h', update Env.quickCallsDead 502 Magnetometer.new Hw.init = some (m', h')) :=
  have hadv : ∀ tr, Env.quickCallsDead.clock tr + 1
      ≤ Env.quickCallsDead.clock (tr ++ [Op.micros, Op.digitalRead Pin.dataReady]) := by
    intro tr
    show 2 * tr.length + 1 ≤ 2 * (tr ++ [Op.micros, Op.digitalRead Pin.dataReady]).length
    simp; omega
  have hmax : ∀ tr, Env.quickCallsDead.clock (tr ++ [Op.micros, Op.digitalRead Pin.dataReady])
      ≤ Env.quickCallsDead.clock tr + 4 := by
    intro tr
    show 2 * (tr ++ [Op.micros, Op.digitalRead Pin.dataReady]).length ≤ 2 * tr.length + 4
    simp; omega
  ⟨(poll_loop_terminates Env.quickCallsDead 4 502 0 0 0 0 Magnetometer.new Hw.init hadv hmax).1
      501 (by decide) rfl (by norm_num) (by decide),
   (poll_loop_terminates Env.quickCallsDead 4 502 0 0 0 0 Magnetometer.new Hw.init hadv
      hmax).2.2 (by norm_num) (by decide)⟩

/-- Counterexample to C15 as stated: the clock is a full counter period (2^32 us)
further at every sample, so it advances by at least 1 between successive
samples, yet `micros()` always reads 0, the elapsed time never exceeds 501 and
`read` never returns against a dead DATA-READY line. -/
theorem read_spins_across_counter_periods :
    (∀ tr, Env.fullPeriodSteps.clock tr + 1
        ≤ Env.fullPeriodSteps.clock (tr ++ [Op.micros, Op.digitalRead Pin.dataReady]))
      ∧ (∀ fuel, read Env.fullPeriodSteps fuel 0 0 0 0 Hw.init = none) := by
  constructor
  · intro tr
    show 2 ^ 32 * sampleCount tr + 1
      ≤ 2 ^ 32 * sampleCount (tr ++ [Op.micros, Op.digitalRead Pin.dataReady])
    rw [sampleCount_append]
    simp [sampleCount]
    omega
  · intro fuel
    rw [read_valid Env.fullPeriodSteps fuel 0 0 0 0 501 Hw.init (by decide) rfl]
    have hspin := pollLoop_spins Env.fullPeriodSteps
      (startStamp Env.fullPeriodSteps 0 0 Hw.init) 501 fuel
      (loopEntry Env.fullPeriodSteps 0 0 Hw.init) (fun i => by
        refine ⟨rfl, ?_⟩
        have e : elapsedAt Env.fullPeriodSteps (startStamp Env.fullPeriodSteps 0 0 Hw.init)
            (loopEntry Env.fullPeriodSteps 0 0 Hw.init) i
            = subU32 ((2 ^ 32 * sampleCount ((loopEntry Env.fullPeriodSteps 0 0 Hw.init).trace
                ++ pollTrace i ++ [Op.digitalRead Pin.dataReady])) % 2 ^ 32) 0 := rfl
        rw [e, Nat.mul_mod_right]
        decide)
    rw [hspin]

/-! ## Command order of a full-sample pass -/

/-- `update` does not return when its X read does not. -/
theorem update_none_of_first (env : Env) (fuel : Nat) (m : Magnetometer) (h : Hw)
    (hx : read env fuel 0 MM_PERIOD_32 0 0
      (spiConfigure (delay 2 (digitalWrite Pin.chipSelect false h))) = none) :
    update env fuel m h = none := by
  unfold update
  simp only
  rw [readAxis_none _ _ 0 _ _ hx]

/-- Counterexample to C7 as stated: on a dead DATA-READY line with a clock that
does not advance, the X read has sent `0x01` and then polls forever, so `update`
never returns and the commands `0x02` and `0x03` are never sent. -/
theorem update_stuck_after_first_command :
    (∀ fuel, update Env.frozenClock fuel Magnetometer.new Hw.init = none)
      ∧ (∀ fuel, pollLoop Env.frozenClock
          (startStamp Env.frozenClock 0 MM_PERIOD_32
            (spiConfigure (delay 2 (digitalWrite Pin.chipSelect false Hw.init)))) 501 fuel
          (loopEntry Env.frozenClock 0 MM_PERIOD_32
            (spiConfigure (delay 2 (digitalWrite Pin.chipSelect false Hw.init)))) = none)
      ∧ sentBytes (loopEntry Env.frozenClock 0 MM_PERIOD_32
          (spiConfigure (delay 2 (digitalWrite Pin.chipSelect false Hw.init)))).trace = [0x01] := by
  have hspin : ∀ fuel, pollLoop Env.frozenClock
      (startStamp Env.frozenClock 0 MM_PERIOD_32
        (spiConfigure (delay 2 (digitalWrite Pin.chipSelect false Hw.init)))) 501 fuel
      (loopEntry Env.frozenClock 0 MM_PERIOD_32
        (spiConfigure (delay 2 (digitalWrite Pin.chipSelect false Hw.init)))) = none := by
    intro fuel
    apply pollLoop_spins
    intro i
    refine ⟨rfl, ?_⟩
    have e : elapsedAt Env.frozenClock
        (startStamp Env.frozenClock 0 MM_PERIOD_32
          (spiConfigure (delay 2 (digitalWrite Pin.chipSelect false Hw.init))))
        (loopEntry Env.frozenClock 0 MM_PERIOD_32
          (spiConfigure (delay 2 (digitalWrite Pin.chipSelect false Hw.init)))) i
        = subU32 (0 % 2 ^ 32) 0 := rfl
    rw [e]
    decide
  refine ⟨fun fuel => ?_, hspin, by decide⟩
  apply update_none_of_first
  rw [read_valid Env.frozenClock fuel 0 MM_PERIOD_32 0 0 501 _ (by decide) rfl, hspin fuel]

/-- C7, amended: whenever `update` returns it has attempted the three axes once
each, in the order X, Y, Z, each with period rank 0 and timeout argument 0 (the
table default 501): the bytes it transferred are the command `0x01`, then `0x02`,
then `0x03`, each followed by two placeholder zero bytes exactly when that axis
read succeeded, so a failed axis does not suppress a later command.  And `update`
does return, with exactly these three commands, whenever the microsecond clock
moves on by at least 1 and at most `B` between successive samples with
`501 + B < 2^32` (fuel above 501 is enough). -/
theorem update_command_order (env : Env) (B fuel : Nat) (m : Magnetometer) (h : Hw) :
    ((∀ tr, env.clock tr + 1 ≤ env.clock (tr ++ [Op.micros, Op.digitalRead Pin.dataReady])) →
      (∀ tr, env.clock (tr ++ [Op.micros, Op.digitalRead Pin.dataReady]) ≤ env.clock tr + B) →
      501 + B < 2 ^ 32 → 501 < fuel →
        ∃ m' h' added, update env fuel m h = some (m', h')
          ∧ h'.trace = h.trace ++ added
          ∧ (sentBytes added).filter (fun b => b != 0) = [0x01, 0x02, 0x03])
      ∧ (∀ m' h', update env fuel m h = some (m', h') →
          ∃ okX rX hX okY rY hY okZ rZ hZ added,
            read env fuel 0 MM_PERIOD_32 0 0
                (spiConfigure (delay 2 (digitalWrite Pin.chipSelect false h)))
              = some (okX, rX, hX)
            ∧ read env fuel 1 MM_PERIOD_32 0 0 hX = some (okY, rY, hY)
            ∧ read env fuel 2 MM_PERIOD_32 0 0 hY = some (okZ, rZ, hZ)
            ∧ MM_PERIOD_32 = 0 ∧ resolveTimeout 0 MM_PERIOD_32 = some 501
            ∧ h'.trace = h.trace ++ added
            ∧ sentBytes added = 1 :: ((if okX then [0, 0] else [])
                ++ 2 :: ((if okY then [0, 0] else []) ++ 3 :: (if okZ then [0, 0] else [])))
            ∧ (sentBytes added).filter (fun b => b != 0) = [0x01, 0x02, 0x03]) := by
  have key : ∀ m' h', update env fuel m h = some (m', h') →
      ∃ okX rX hX okY rY hY okZ rZ hZ added,
        read env fuel 0 MM_PERIOD_32 0 0
            (spiConfigure (delay 2 (digitalWrite Pin.chipSelect false h)))
          = some (okX, rX, hX)
        ∧ read env fuel 1 MM_PERIOD_32 0 0 hX = some (okY, rY, hY)
        ∧ read env fuel 2 MM_PERIOD_32 0 0 hY = some (okZ, rZ, hZ)
        ∧ MM_PERIOD_32 = 0 ∧ resolveTimeout 0 MM_PERIOD_32 = some 501
        ∧ h'.trace = h.trace ++ added
        ∧ sentBytes added = 1 :: ((if okX then [0, 0] else [])
            ++ 2 :: ((if okY then [0, 0] else []) ++ 3 :: (if okZ then [0, 0] else [])))
        ∧ (sentBytes added).filter (fun b => b != 0) = [0x01, 0x02, 0x03] := by
    intro m' h' hrun
    obtain ⟨okX, rX, hX, okY, rY, hY, okZ, rZ, hZ, added, hx, hy, hz, ht, hs, _⟩ :=
      update_trace env fuel m m' h h' hrun
    refine ⟨okX, rX, hX, okY, rY, hY, okZ, rZ, hZ, added, hx, hy, hz, rfl, rfl, ht, hs, ?_⟩
    rw [hs]
    cases okX <;> cases okY <;> cases okZ <;> decide
  refine ⟨fun hadv hmax hB hfuel => ?_, key⟩
  obtain ⟨m', h', hrun⟩ := update_total env B fuel m h hadv hmax hB hfuel
  obtain ⟨_, _, _, _, _, _, _, _, _, added, _, _, _, _, _, ht, _, hf⟩ := key m' h' hrun
  exact ⟨m', h', added, hrun, ht, hf⟩

/-- Witness for amended C7: a dead DATA-READY line on a clock of 2 us per call
(all three axes time out, all three commands sent), and a run where X times out
while Y and Z succeed. -/
theorem update_command_order_witness :
    (∃ m' h' added, update Env.quickCallsDead 502 Magnetometer.new Hw.init = some (m', h')
        ∧ h'.trace = Hw.init.trace ++ added
        ∧ (sentBytes added).filter (fun b => b != 0) = [0x01, 0x02, 0x03])
      ∧ (∃ m' h', update Env.xTimesOut 1 Magnetometer.new Hw.init = some (m', h')
        ∧ sentBytes h'.trace = [1, 2, 0, 0, 3, 0, 0]
        ∧ ∃ okX rX hX okY rY hY okZ rZ hZ added,
          read Env.xTimesOut 1 0 MM_PERIOD_32 0 0
              (spiConfigure (delay 2 (digitalWrite Pin.chipSelect false Hw.init)))
            = some (okX, rX, hX)
          ∧ read Env.xTimesOut 1 1 MM_PERIOD_32 0 0 hX = some (okY, rY, hY)
          ∧ read Env.xTimesOut 1 2 MM_PERIOD_32 0 0 hY = some (okZ, rZ, hZ)
          ∧ MM_PERIOD_32 = 0 ∧ resolveTimeout 0 MM_PERIOD_32 = some 501
          ∧ h'.trace = Hw.init.trace ++ added
          ∧ sentBytes added = 1 :: ((if okX then [0, 0] else [])
              ++ 2 :: ((if okY then [0, 0] else []) ++ 3 :: (if okZ then [0, 0] else [])))
          ∧ (sentBytes added).filter (fun b => b != 0) = [0x01, 0x02, 0x03]) :=
  have hadv : ∀ tr, Env.quickCallsDead.clock tr + 1
      ≤ Env.quickCallsDead.clock (tr ++ [Op.micros, Op.digitalRead Pin.dataReady]) := by
    intro tr
    show 2 * tr.length + 1 ≤ 2 * (tr ++ [Op.micros, Op.digitalRead Pin.dataReady]).length
    simp; omega
  have hmax : ∀ tr, Env.quickCallsDead.clock (tr ++ [Op.micros, Op.digitalRead Pin.dataReady])
      ≤ Env.quickCallsDead.clock tr + 4 := by
    intro tr
    show 2 * (tr ++ [Op.micros, Op.digitalRead Pin.dataReady]).length ≤ 2 * tr.length + 4
    simp; omega
  ⟨(update_command_order Env.quickCallsDead 4 502 Magnetometer.new Hw.init).1 hadv hmax
      (by norm_num) (by decide),
   ⟨_, _, rfl, rfl,
    (update_command_order Env.xTimesOut 0 1 Magnetometer.new Hw.init).2 _ _ rfl⟩⟩

end ardadv.sensors.magnetometer
